import Mathlib

/-!
Verification development for the estimate-building engine of the
Gemini-pipeline repository (src/Estimation/estimate_builder.py).

The Python source is shallowly embedded: dictionaries become structures
(the embedding treats every key as present, with the `dict.get` default
recorded as the field's default value), floats become rationals, and
Python's banker's rounding (`round`) is modelled exactly on ℚ.
-/

namespace EstimateBuilder

/-- Python's `round` on a rational: round half to even (banker's rounding). -/
def pyRound (q : ℚ) : ℤ :=
  if q - (⌊q⌋ : ℚ) < 1/2 then ⌊q⌋
  else if 1/2 < q - (⌊q⌋ : ℚ) then ⌊q⌋ + 1
  else if ⌊q⌋ % 2 = 0 then ⌊q⌋ else ⌊q⌋ + 1

/-- `round(q / 25) * 25` — the "round to nearest $25" idiom used throughout. -/
def roundTo25 (q : ℚ) : ℚ := (pyRound (q / 25) : ℚ) * 25

/-- Python's `round(q, d)`: round to `d` decimal places, half to even. -/
def pyRoundDec (d : ℕ) (q : ℚ) : ℚ := (pyRound (q * 10 ^ d) : ℚ) / 10 ^ d

/-- Does `n` occur as a prefix of `hay`? (helper for substring search) -/
def listIsPrefix (n hay : List Char) : Bool :=
  match n, hay with
  | [], _ => true
  | _ :: _, [] => false
  | a :: n', b :: hay' => a = b && listIsPrefix n' hay'

/-- Does `n` occur as a contiguous sublist of `hay`? -/
def listIsSub (n hay : List Char) : Bool :=
  match hay with
  | [] => n.isEmpty
  | _ :: t => listIsPrefix n hay || listIsSub n t

/-- Python's `needle in hay` on strings: substring containment. -/
def strIn (needle hay : String) : Bool := listIsSub needle.data hay.data

/-- Python's `s.lower()`. -/
def lowerStr (s : String) : String := ⟨s.data.map Char.toLower⟩

/-- Python's `s.upper()`. -/
def upperStr (s : String) : String := ⟨s.data.map Char.toUpper⟩

/-- Drop leading whitespace characters. -/
def dropLeadingWs : List Char → List Char
  | [] => []
  | c :: t => if c.isWhitespace then dropLeadingWs t else c :: t

/-- Python's `s.strip()`: remove leading and trailing whitespace. -/
def trimStr (s : String) : String :=
  ⟨((dropLeadingWs ((dropLeadingWs s.data).reverse)).reverse)⟩

/-- The first `n` characters of a string (Python's `s[:n]`). -/
def takeStr (s : String) (n : ℕ) : String := ⟨s.data.take n⟩

/-- Characters of `hay` strictly before the first occurrence of `sep`. -/
def beforeFirstAux (sep : List Char) : List Char → List Char
  | [] => []
  | c :: t => if listIsPrefix sep (c :: t) then [] else c :: beforeFirstAux sep t

/-- Python's `hay.split(sep)[0]`: the text before the first occurrence
of `sep` (the whole string when `sep` does not occur). -/
def beforeFirst (sep hay : String) : String := ⟨beforeFirstAux sep.data hay.data⟩

/-- Python's `sep.join(parts)`. -/
def joinSep (sep : String) : List String → String
  | [] => ""
  | [x] => x
  | x :: xs => x ++ sep ++ joinSep sep xs

/-- Worker for `pySplitWs`: current (reversed) word plus remaining input. -/
def wordsAux : List Char → List Char → List String
  | [], [] => []
  | [], acc => [⟨acc.reverse⟩]
  | c :: t, acc =>
    if c.isWhitespace then
      (if acc.isEmpty then wordsAux t [] else (⟨acc.reverse⟩ : String) :: wordsAux t [])
    else wordsAux t (c :: acc)

/-- Python's `s.split()`: split on whitespace, dropping empty pieces. -/
def pySplitWs (s : String) : List String := wordsAux s.data []

/-- Characterwise worker for `pyTitle`; the flag records whether the
previous character was alphabetic. -/
def pyTitleAux : Bool → List Char → List Char
  | _, [] => []
  | prevAlpha, c :: t =>
    if c.isAlpha then
      (if prevAlpha then c.toLower else c.toUpper) :: pyTitleAux true t
    else c :: pyTitleAux false t

/-- Python's `str.title()` restricted to letters (sufficient for the
category names it is applied to). -/
def pyTitle (s : String) : String := ⟨pyTitleAux false s.data⟩

/-- One inspection finding (§3 of the spec).  Keys the code reads with
`dict.get` defaults are modelled as always-present fields whose default
is the `get` default. -/
structure Issue where
  sectionName : String := ""
  component : String := ""
  title : String := ""
  description : String := ""
  notes : String := ""
  location : String := ""
  severity : String := "moderate"
  priority : String := "MEDIUM"
  priority_reason : String := ""
  suggested_category : String := "MISCELLANEOUS"
deriving Repr, DecidableEq

/-- One row of `CATEGORY_SEVERITY_PRICE_MATRIX`. -/
structure SeverityRow where
  minor : ℚ
  moderate : ℚ
  major : ℚ
  critical : ℚ
deriving Repr, DecidableEq

/-- `CATEGORY_SEVERITY_PRICE_MATRIX` from the source (category → row). -/
def CATEGORY_SEVERITY_PRICE_MATRIX (category : String) : Option SeverityRow :=
  if category = "PLUMBING" then some ⟨150, 400, 800, 1500⟩
  else if category = "ELECTRICAL" then some ⟨200, 500, 1200, 2500⟩
  else if category = "HVAC" then some ⟨150, 600, 1500, 3500⟩
  else if category = "ROOF" then some ⟨300, 800, 2500, 8000⟩
  else if category = "FOUNDATION" then some ⟨400, 1200, 3500, 8000⟩
  else if category = "WINDOWS/DOORS" then some ⟨150, 400, 1000, 2500⟩
  else if category = "ATTIC" then some ⟨200, 500, 1200, 2500⟩
  else if category = "MISCELLANEOUS" then some ⟨200, 500, 1200, 2500⟩
  else none

/-- `severity_prices.get(severity, ...)`: look a severity name up in a row. -/
def rowGet (row : SeverityRow) (severity : String) : Option ℚ :=
  if severity = "minor" then some row.minor
  else if severity = "moderate" then some row.moderate
  else if severity = "major" then some row.major
  else if severity = "critical" then some row.critical
  else none

/-- A priced row / estimate line item as a dictionary in the source.
Covers both Phase-1 per-issue rows and Phase-2 consolidated items
(`original_items` retains the merged members). `consolidated_issue_count`
is the key `score_price_consistency` reads; the pipeline never writes it,
so it keeps the `get` default 1. -/
structure PricedRow where
  category : String := "MISCELLANEOUS"
  description : String := ""
  qty : ℕ := 1
  unit_price_usd : ℚ := 0
  line_total_usd : ℚ := 0
  notes : String := ""
  disclaimer : String := ""
  priority : String := "MEDIUM"
  bundled_issues : ℕ := 1
  discount_applied : ℚ := 0
  discount_justification : String := ""
  consolidated_issue_count : ℕ := 1
  original_issue_id : Option ℕ := none
  original_issue : Option Issue := none
  original_items : List PricedRow := []
deriving Repr

/-- `create_fallback_pricing`: severity-based fallback when the oracle
fails.  `random.uniform(0.9, 1.1)` is environment input, passed in as the
`jitter` argument. -/
def create_fallback_pricing (issue : Issue) (jitter : ℚ) : PricedRow :=
  let category := issue.suggested_category
  let severity := lowerStr issue.severity
  let severity_prices :=
    (CATEGORY_SEVERITY_PRICE_MATRIX category).getD
      ((CATEGORY_SEVERITY_PRICE_MATRIX ("MISCELLANEOUS")).getD ⟨200, 500, 1200, 2500⟩)
  let base_price :=
    (rowGet severity_prices severity).getD ((rowGet severity_prices ("moderate")).getD 200)
  let price := roundTo25 (base_price * jitter)
  { category := category
    description := issue.description
    qty := 1
    unit_price_usd := price
    line_total_usd := price
    notes := "Fallback pricing based on " ++ severity ++ " severity"
    priority := issue.priority
    bundled_issues := 1
    discount_applied := 0
    discount_justification := "No discount"
    original_items := [] }

/-- One entry of `CATEGORY_CONSOLIDATION_RULES`. -/
structure ConsolidationRule where
  target_ratio : ℚ
  max_per_item : ℕ
  bundling_strategy : String
  reason : String
deriving Repr, DecidableEq

/-- `CATEGORY_CONSOLIDATION_RULES.get(category, rules["MISCELLANEOUS"])`:
the per-category bundling rules, defaulting to MISCELLANEOUS. -/
def CATEGORY_CONSOLIDATION_RULES (category : String) : ConsolidationRule :=
  if category = "ROOF" then
    ⟨11/2, 8, "aggressive",
      "Single trade, single mobilization, roof work naturally bundles into comprehensive packages"⟩
  else if category = "ELECTRICAL" then
    ⟨4, 5, "moderate",
      "Group by circuit/location, but keep distinct electrical work separate for clarity"⟩
  else if category = "PLUMBING" then
    ⟨7/2, 4, "moderate",
      "Group by system (supply/drain), but keep major fixtures/repairs separate"⟩
  else if category = "HVAC" then
    ⟨3, 3, "moderate",
      "Group by system (heating/cooling), but keep major repairs and replacements separate"⟩
  else if category = "FOUNDATION" then
    ⟨2, 3, "conservative",
      "Each foundation issue often needs separate engineering assessment, minimal bundling"⟩
  else if category = "WINDOWS/DOORS" then
    ⟨3, 4, "moderate",
      "Group by type (windows vs doors) and location, but keep large jobs itemized"⟩
  else if category = "ATTIC" then
    ⟨4, 5, "moderate",
      "Single access point, insulation and ventilation work naturally bundles"⟩
  else
    ⟨3, 4, "moderate", "General repairs - moderate bundling by similarity"⟩

/-- `DISCLAIMER_TEMPLATES.get(category, "")`. -/
def DISCLAIMER_TEMPLATES (category : String) : String :=
  if category = "PLUMBING" then
    "Texas state average pricing. Local codes and materials may affect final cost."
  else if category = "ELECTRICAL" then
    "Based on Texas electrical code requirements and state average labor rates."
  else if category = "HVAC" then
    "Texas climate zone pricing. Actual cost depends on system specifications."
  else if category = "ROOF" then
    "Texas weather considerations included. Price varies by material and accessibility."
  else if category = "FOUNDATION" then
    "Texas soil conditions vary. Final pricing after engineering evaluation."
  else if category = "WINDOWS/DOORS" then
    "Texas building code compliant installation at state average rates."
  else if category = "ATTIC" then
    "Texas energy code requirements. Pricing includes state rebate eligibility."
  else if category = "MISCELLANEOUS" then
    "Based on current Texas state contractor rates."
  else if category = "GENERAL" then
    "Estimate reflects Texas state market conditions as of 2024-2025."
  else ""

/-- Insert an item into an insertion-ordered association list of groups,
mirroring the `by_category` dict building loop of
`code_based_consolidation`. -/
def addToGroups (groups : List (String × List PricedRow)) (cat : String)
    (it : PricedRow) : List (String × List PricedRow) :=
  match groups with
  | [] => [(cat, [it])]
  | (c, l) :: rest =>
    if c = cat then (c, l ++ [it]) :: rest else (c, l) :: addToGroups rest cat it

/-- Group priced items by their `category` key, preserving both the
first-occurrence order of categories (Python dict insertion order) and
the original order within each group. -/
def groupByCategory (items : List PricedRow) : List (String × List PricedRow) :=
  items.foldl (fun groups item => addToGroups groups item.category item) []

/-- Index of a priority label in the `["CRITICAL","HIGH","MEDIUM","LOW"]`
list; unknown labels get index 2, as in `create_consolidated_line_item`. -/
def priorityIndex (p : String) : ℕ :=
  if p = "CRITICAL" then 0
  else if p = "HIGH" then 1
  else if p = "MEDIUM" then 2
  else if p = "LOW" then 3
  else 2

/-- Python's `min(item_priorities, key=...)`: the first label of minimal
index.  `min` on an empty list raises in Python; the bundles this is
applied to are never empty, and the empty case returns "MEDIUM". -/
def minByPriority (ps : List String) : String :=
  match ps with
  | [] => "MEDIUM"
  | p :: rest =>
    rest.foldl (fun best q => if priorityIndex q < priorityIndex best then q else best) p

/-- The title used for theme extraction: the original issue's title when
the row carries one, else the row's description
(`_create_meaningful_description`). -/
def themeTitle (item : PricedRow) : String :=
  match item.original_issue with
  | some orig => orig.title
  | none => item.description

/-- The theme-collection loop of `_create_meaningful_description`:
accumulates up to 3 deduplicated (case-insensitively) key phrases. -/
def themesLoop : List PricedRow → List String → List String → List String
  | [], themes, _seen => themes
  | item :: rest, themes, seen =>
    let title := themeTitle item
    if title = "" then themesLoop rest themes seen
    else
      let key_part :=
        if strIn (":") title then trimStr (beforeFirst (":") title)
        else joinSep (" ") ((pySplitWs title).take 3)
      let key_normalized := lowerStr key_part
      let themes' :=
        if key_normalized ∉ seen ∧ key_part.length > 3 then themes ++ [key_part] else themes
      let seen' :=
        if key_normalized ∉ seen ∧ key_part.length > 3 then seen ++ [key_normalized] else seen
      if themes'.length ≥ 3 then themes' else themesLoop rest themes' seen'

/-- `_create_meaningful_description`: synthesize a bundle description
from member issue titles. -/
def create_meaningful_description (items : List PricedRow) (category : String) : String :=
  match items with
  | [item] =>
    (match item.original_issue with
     | some orig => if orig.title ≠ "" then orig.title else item.description
     | none => item.description)
  | _ =>
    let themes := themesLoop items [] []
    match themes with
    | [] => pyTitle category ++ " Repairs"
    | [t] => t ++ " Repairs"
    | [t1, t2] => t1 ++ " and " ++ t2 ++ " Repairs"
    | ts => joinSep (", ") ts.dropLast ++ ", and " ++ ts.getLast! ++ " Repairs"

/-- The per-member detail text of `_create_detailed_notes_from_items`
(multi-item branch), before numbering and filtering. -/
def detailText (item : PricedRow) : String :=
  let fromOrig :=
    match item.original_issue with
    | some orig =>
      if orig.title ≠ "" then
        (if orig.location ≠ "" ∧ ¬ strIn (lowerStr orig.location) (lowerStr orig.title) then
          orig.title ++ " (" ++ orig.location ++ ")"
         else orig.title)
      else orig.description
    | none => ""
  let d1 := if fromOrig = "" then item.description else fromOrig
  let d2 :=
    if d1 = "" ∨ d1 = "Fallback pricing based on deficient severity" then item.notes else d1
  let d3 := trimStr d2
  let d4 :=
    if strIn ("Recommendation:") d3 then trimStr (beforeFirst ("Recommendation:") d3)
    else d3
  if d4.data.length > 200 then takeStr d4 197 ++ "..." else d4

/-- Numbered-detail accumulation loop of `_create_detailed_notes_from_items`. -/
def detailsLoop : ℕ → List PricedRow → List String
  | _, [] => []
  | i, item :: rest =>
    let t := detailText item
    if t ≠ "" ∧ t ≠ "Fallback pricing based on deficient severity" then
      (toString i ++ ". " ++ t) :: detailsLoop (i + 1) rest
    else detailsLoop (i + 1) rest

/-- `_create_detailed_notes_from_items`: transparency notes listing the
members merged into a consolidated item. -/
def create_detailed_notes_from_items (items : List PricedRow) : String :=
  match items with
  | [item] =>
    (match item.original_issue with
     | some orig =>
       if orig.title ≠ "" ∧ orig.title ≠ orig.description then orig.title
       else if orig.description ≠ "" then orig.description
       else item.description
     | none => item.description)
  | _ =>
    let details := detailsLoop 1 items
    match details with
    | [] =>
      let n := items.length
      s!"Includes {n} related repairs"
    | _ => joinSep ("\n") details

/-- The bundling-discount table of `create_consolidated_line_item`:
10% for 3+ members, 5% for 2, none otherwise. -/
def bundleDiscountPct (n : ℕ) : ℚ :=
  if n ≥ 3 then 10 else if n = 2 then 5 else 0

/-- `create_consolidated_line_item`: merge a bundle of priced rows into
one consolidated line item (discounted sum rounded to $25, synthesized
description and notes, most severe member priority, members retained).
The `bundle_num` argument exists in the source but is unused there too. -/
def create_consolidated_line_item (items : List PricedRow) (category : String)
    (_bundle_num : ℕ) : PricedRow :=
  let total_price := (items.map (fun it => it.unit_price_usd)).sum
  let discount_pct := bundleDiscountPct items.length
  let discounted_price := roundTo25 (total_price * (1 - discount_pct / 100))
  let description := create_meaningful_description items category
  let priority := minByPriority (items.map (fun it => it.priority))
  let detailed_notes := create_detailed_notes_from_items items
  let n := items.length
  { category := category
    description := description
    qty := 1
    unit_price_usd := discounted_price
    line_total_usd := discounted_price
    notes := detailed_notes
    disclaimer := DISCLAIMER_TEMPLATES category
    priority := priority
    bundled_issues := items.length
    discount_applied := discount_pct
    discount_justification :=
      if discount_pct > 0 then s!"Same category, {n} items bundled for efficiency"
      else "No discount"
    original_items := items }

/-- The greedy bundling loop of `code_based_consolidation`: state is the
remaining items, the current open bundle, its running issue count and the
bundle number. -/
def greedyLoop (maxPerItem : ℕ) (category : String) :
    List PricedRow → List PricedRow → ℕ → ℕ → List PricedRow
  | [], current_bundle, _current_count, bundle_num =>
    if current_bundle.isEmpty then []
    else [create_consolidated_line_item current_bundle category bundle_num]
  | item :: rest, current_bundle, current_count, bundle_num =>
    let item_count := item.bundled_issues
    if current_count + item_count > maxPerItem ∧ current_bundle.isEmpty = false then
      create_consolidated_line_item current_bundle category bundle_num ::
        greedyLoop maxPerItem category rest [item] item_count (bundle_num + 1)
    else
      greedyLoop maxPerItem category rest (current_bundle ++ [item])
        (current_count + item_count) bundle_num

/-- `code_based_consolidation` (Phase 2): group priced items by category
and greedily bundle each group under its category's `max_per_item`.
The `normalized_issues` argument is unused in the source as well. -/
def code_based_consolidation (priced_items : List PricedRow)
    (_normalized_issues : List Issue) : List PricedRow :=
  (groupByCategory priced_items).flatMap fun g =>
    let rules := CATEGORY_CONSOLIDATION_RULES g.1
    if g.2.length = 1 then g.2
    else greedyLoop rules.max_per_item g.1 g.2 [] 0 1

/-- The shape of the `bundled_issues` value read by
`enforce_consolidation_limits`: an integer count, an actual list of
member issues, or anything else (the logged-and-skipped branch). -/
inductive BundledField where
  | count (n : ℕ)
  | members (l : List Issue)
  | other
deriving Repr, DecidableEq

/-- A line item as seen by `enforce_consolidation_limits` — exactly the
keys that function reads and writes. -/
structure LineItem where
  category : String := "MISCELLANEOUS"
  description : String := ""
  bundled_issues : BundledField := .count 1
  base_price : ℚ := 0
  discount_applied : ℚ := 0
  discount_justification : String := ""
  final_price : ℚ := 0
  line_total_usd : ℚ := 0
  priority : String := "MEDIUM"
  notes : String := ""
deriving Repr, DecidableEq

/-- `math.ceil(a / b)` on naturals. -/
def ceilDivNat (a b : ℕ) : ℕ := (a + b - 1) / b

/-- The issue count `enforce_consolidation_limits` derives from an item's
`bundled_issues` value (0 for the unrecognized shape, which is kept as-is
before the count is ever used). -/
def lineItemIssueCount (item : LineItem) : ℕ :=
  match item.bundled_issues with
  | .count n => n
  | .members l => l.length
  | .other => 0

/-- One split part produced by `enforce_consolidation_limits` for an
over-consolidated item: part `i` (0-based) of `num_splits`, carrying the
sliced member issues and an even `1/num_splits` share of every price. -/
def mkSplitItem (item : LineItem) (issue_count max_per_item num_splits : ℕ)
    (i : ℕ) (split_issues : List Issue) : LineItem :=
  { category := item.category
    description :=
      item.description ++ " - Part " ++ toString (i + 1) ++ " of " ++ toString num_splits
    bundled_issues := .members split_issues
    base_price := item.base_price / (num_splits : ℚ)
    discount_applied := item.discount_applied
    discount_justification := item.discount_justification
    final_price := item.final_price / (num_splits : ℚ)
    line_total_usd := item.line_total_usd / (num_splits : ℚ)
    priority := item.priority
    notes := "Auto-split from over-consolidated item (" ++ toString issue_count
      ++ " issues > " ++ toString max_per_item ++ " max)" }

/-- The splitting branch of `enforce_consolidation_limits`: cut an
over-cap member list into `ceil(count/max)` slices of
`ceil(count/num_splits)` issues each, skipping empty slices. -/
def splitMembers (item : LineItem) (l : List Issue) : List LineItem :=
  let max_per_item := (CATEGORY_CONSOLIDATION_RULES item.category).max_per_item
  let issue_count := l.length
  let num_splits := ceilDivNat issue_count max_per_item
  let issues_per_split := ceilDivNat issue_count num_splits
  (List.range num_splits).flatMap fun i =>
    let start_idx := i * issues_per_split
    let end_idx := min ((i + 1) * issues_per_split) issue_count
    let split_issues := (l.drop start_idx).take (end_idx - start_idx)
    if split_issues.isEmpty then []
    else [mkSplitItem item issue_count max_per_item num_splits i split_issues]

/-- The `enforce_consolidation_limits` loop body, by the shape of the
item's `bundled_issues` value: integer counts and unrecognized shapes
pass through unchanged; an actual member list is split when over cap. -/
def enforceItemCore (item : LineItem) : BundledField → List LineItem
  | .count _ => [item]
  | .other => [item]
  | .members l =>
    if l.length > (CATEGORY_CONSOLIDATION_RULES item.category).max_per_item
        ∧ l.isEmpty = false then
      splitMembers item l
    else [item]

/-- The per-item body of the `enforce_consolidation_limits` loop: items
within their category's `max_per_item` (or carrying no actual member
list) pass through unchanged. -/
def enforceItem (item : LineItem) : List LineItem :=
  enforceItemCore item item.bundled_issues

/-- `enforce_consolidation_limits`: the EnforcementSplitter.  The
`all_issues` argument is unused in the source as well. -/
def enforce_consolidation_limits (items : List LineItem)
    (_all_issues : List Issue) : List LineItem :=
  items.flatMap enforceItem

/-- Outcome of one oracle call in `call_gemini_for_individual_pricing`:
a successfully parsed JSON record, a `json.JSONDecodeError` after a
successful transport, or an exception raised by the call itself. -/
inductive OracleOutcome where
  | success (item : PricedRow)
  | parseFailure
  | transportFailure

/-- The body of the per-issue pricing loop (0-based index `idx`; the
source enumerates from 1 and stores `idx - 1`).  On a parse failure the
fallback row flows through the common field overwrites; on a transport
failure the fallback row gets only the back-references (its
`bundled_issues` is already 1). -/
def priceIssue (oracle : ℕ → Issue → OracleOutcome) (jitter : ℕ → ℚ)
    (idx : ℕ) (issue : Issue) : PricedRow :=
  match oracle idx issue with
  | .success item =>
    { item with bundled_issues := 1, original_issue_id := some idx,
                original_issue := some issue }
  | .parseFailure =>
    { create_fallback_pricing issue (jitter idx) with
        bundled_issues := 1, original_issue_id := some idx, original_issue := some issue }
  | .transportFailure =>
    { create_fallback_pricing issue (jitter idx) with
        original_issue_id := some idx, original_issue := some issue }

/-- The Phase-1 pricing loop of `call_gemini_for_individual_pricing`
(cache-miss path) with the running `enumerate` index made explicit. -/
def priceLoopAux (oracle : ℕ → Issue → OracleOutcome) (jitter : ℕ → ℚ) :
    ℕ → List Issue → List PricedRow
  | _, [] => []
  | idx, issue :: rest =>
    priceIssue oracle jitter idx issue :: priceLoopAux oracle jitter (idx + 1) rest

/-- The Phase-1 pricing loop of `call_gemini_for_individual_pricing`
(cache-miss path): price each issue independently, in order. -/
def priceIssuesLoop (oracle : ℕ → Issue → OracleOutcome) (jitter : ℕ → ℚ)
    (issues : List Issue) : List PricedRow :=
  priceLoopAux oracle jitter 0 issues

/-- The prompt-version tag mixed into the cache fingerprint. -/
def promptVersion : String := "v7.0-individual-pricing"

/-- The cache fingerprint: first 16 hex characters of
`sha256(json.dumps(issues, sort_keys=True) + prompt_version)`.  The hash
(`hashlib.sha256(...).hexdigest()`) and the sorted-keys JSON serializer
are Python-library collaborators, passed in as function arguments. -/
def cacheKey (sha256hex : String → String) (serialize : List Issue → String)
    (issues : List Issue) : String :=
  takeStr (sha256hex (serialize issues ++ promptVersion)) 16

/-- One cached blob: the priced items and the stored token count. -/
structure CacheEntry where
  items : List PricedRow
  tokens : Option ℕ

/-- `call_gemini_for_individual_pricing`: on a cache hit return the
stored items and tokens without any oracle call; on a miss run the
per-issue loop (one oracle call per issue, `total_tokens` stays 0) and
return it.  The result is paired with the number of oracle invocations
performed, so that "without invoking the oracle" is expressible. -/
def call_gemini_for_individual_pricing (sha256hex : String → String)
    (serialize : List Issue → String) (cache : String → Option CacheEntry)
    (oracle : ℕ → Issue → OracleOutcome) (jitter : ℕ → ℚ)
    (normalized_issues : List Issue) : (List PricedRow × Option ℕ) × ℕ :=
  match cache (cacheKey sha256hex serialize normalized_issues) with
  | some cached => ((cached.items, cached.tokens), 0)
  | none =>
    ((priceIssuesLoop oracle jitter normalized_issues, some 0), normalized_issues.length)

/-- The safety/structural keyword set of `fix_priority_classification`. -/
def safety_keywords : List String :=
  ["exposed wiring", "live wire", "electrical fire", "shock hazard",
   "short circuit", "electrical hazard", "damaged wire", "bare wire",
   "overloaded", "arcing", "sparking",
   "active leak", "water damage", "mold", "moisture intrusion",
   "wet", "water intrusion", "flooding", "water pooling",
   "ice dam", "moisture problem",
   "foundation crack", "wall damage", "floor settling", "compromised",
   "structural damage", "foundation problem", "crack", "subsidence",
   "bowing", "leaning", "separation",
   "gas leak", "carbon monoxide", "unsafe appliance", "gas odor",
   "ventilation problem", "blocked vent", "dangerous"]

/-- The maintenance/cosmetic keyword set of `fix_priority_classification`. -/
def maintenance_keywords : List String :=
  ["worn knob", "worn handle", "worn hinge", "worn finish",
   "dirty filter", "low refrigerant", "low battery",
   "paint", "staining", "discoloration", "worn",
   "adjustment", "tightening", "caulking", "weatherstrip",
   "minor", "routine", "maintenance", "preventive",
   "replace filter", "inspection only"]

/-- The text `fix_priority_classification` scans for one issue:
lowercased title, description and notes. -/
def issueFullText (issue : Issue) : String :=
  let description := lowerStr (issue.description ++ " " ++ issue.notes)
  let title := lowerStr issue.title
  title ++ " " ++ description

/-- Is any safety/structural keyword contained in the issue's text? -/
def isSafetyIssue (issue : Issue) : Bool :=
  safety_keywords.any fun keyword => strIn keyword (issueFullText issue)

/-- Is any maintenance keyword contained in the issue's text? -/
def isMaintenanceIssue (issue : Issue) : Bool :=
  maintenance_keywords.any fun keyword => strIn keyword (issueFullText issue)

/-- The per-issue body of `fix_priority_classification`: the priority is
overwritten from the keyword scan (safety → HIGH, else maintenance →
LOW, else MODERATE), with a matching `priority_reason`. -/
def classifyIssue (issue : Issue) : Issue :=
  if isSafetyIssue issue then
    { issue with priority := "HIGH", priority_reason := "Safety/structural hazard detected" }
  else if isMaintenanceIssue issue then
    { issue with priority := "LOW", priority_reason := "Routine maintenance, not urgent" }
  else
    { issue with priority := "MODERATE", priority_reason := "Standard repair needed" }

/-- `fix_priority_classification`: re-derive every issue's priority from
the two keyword sets (the source mutates the list in place and returns it). -/
def fix_priority_classification (issues : List Issue) : List Issue :=
  issues.map classifyIssue

/-- The (min, max) clamping range of the price tier `stabilize_prices`
selects for a price (`PRICE_RANGES` plus the tier-selection chain). -/
def priceTierRange (current_price : ℚ) : ℚ × ℚ :=
  if current_price ≤ 300 then (75, 300)
  else if current_price ≤ 1000 then (300, 1000)
  else if current_price ≤ 2500 then (1000, 2500)
  else (2500, 5000)

/-- The per-item body of `stabilize_prices`: clamp the unit price into
its tier's range, round to $25, and recompute the line total. -/
def stabilizeItem (item : PricedRow) : PricedRow :=
  let current_price := item.unit_price_usd
  let range := priceTierRange current_price
  let clamped :=
    if current_price < range.1 then range.1
    else if current_price > range.2 then range.2
    else current_price
  let p := roundTo25 clamped
  { item with unit_price_usd := p, line_total_usd := p * (item.qty : ℚ) }

/-- `stabilize_prices` (the source mutates the items in place and
returns the list). -/
def stabilize_prices (items : List PricedRow) : List PricedRow :=
  items.map stabilizeItem

/-- `TEXAS_REGIONAL_MULTIPLIERS.get(region, 1.00)`. -/
def TEXAS_REGIONAL_MULTIPLIERS (region : String) : ℚ :=
  if region = "Dallas-Fort Worth" then 105/100
  else if region = "Austin" then 110/100
  else if region = "Houston" then 1
  else if region = "San Antonio" then 95/100
  else if region = "El Paso" then 90/100
  else if region = "Corpus Christi" then 92/100
  else if region = "Lubbock" then 88/100
  else if region = "Amarillo" then 87/100
  else if region = "Rural Texas" then 85/100
  else if region = "Default" then 1
  else 1

/-- `apply_regional_adjustment`: when the region's multiplier is not
exactly 1.00, scale every unit price and line total by it and re-round
both to $25; a multiplier of 1.00 leaves the items untouched. -/
def apply_regional_adjustment (items : List PricedRow) (region : String) : List PricedRow :=
  let multiplier := TEXAS_REGIONAL_MULTIPLIERS region
  if multiplier ≠ 1 then
    items.map fun item =>
      { item with
          unit_price_usd := roundTo25 (item.unit_price_usd * multiplier)
          line_total_usd := roundTo25 (item.line_total_usd * multiplier) }
  else items

/-- `map_extraction_category_to_pricing`: keyword mapping from TREC
section/component names to the 8 trade categories.  (`title` is
lowercased in the source but never tested.) -/
def map_extraction_category_to_pricing (sectionName : String) (component : String)
    (_title : String) : String :=
  let s := trimStr (lowerStr sectionName)
  let c := trimStr (lowerStr component)
  if strIn ("foundation") s ∨ strIn ("foundation") c then "FOUNDATION"
  else if strIn ("roof") s ∨ strIn ("roof") c ∨ strIn ("gutter") s ∨ strIn ("flashing") s then
    "ROOF"
  else if strIn ("attic") s ∨ strIn ("attic") c ∨ strIn ("insulation") s then "ATTIC"
  else if strIn ("plumbing") s ∨ strIn ("plumbing") c ∨ strIn ("water") s ∨ strIn ("drain") s then
    "PLUMBING"
  else if strIn ("electrical") s ∨ strIn ("electrical") c ∨ strIn ("outlet") s
      ∨ strIn ("circuit") s ∨ strIn ("panel") s then "ELECTRICAL"
  else if strIn ("hvac") s ∨ strIn ("hvac") c ∨ strIn ("heating") s ∨ strIn ("cooling") s
      ∨ strIn ("air condition") s ∨ strIn ("furnace") s then "HVAC"
  else if strIn ("window") s ∨ strIn ("window") c ∨ strIn ("door") s ∨ strIn ("door") c then
    "WINDOWS/DOORS"
  else if strIn ("appliance") s ∨ strIn ("appliance") c ∨ strIn ("dishwasher") s
      ∨ strIn ("disposal") s ∨ strIn ("range") s then "MISCELLANEOUS"
  else if strIn ("grading") c ∨ strIn ("soil") c then "FOUNDATION"
  else if strIn ("wood rot") c ∨ strIn ("wood trim") c ∨ strIn ("siding") c
      ∨ strIn ("decks") c ∨ strIn ("porches") c then "MISCELLANEOUS"
  else if strIn ("structural") s then "FOUNDATION"
  else "MISCELLANEOUS"

/-- `get_consolidation_guidance`: recommended item count and
issues-per-item for a category, from its target ratio and hard cap. -/
structure ConsolidationGuidance where
  category : String
  issue_count : ℕ
  recommended_items : ℕ
  issues_per_item : ℕ
  target_ratio : ℚ
  max_per_item : ℕ
deriving Repr, DecidableEq

/-- `get_consolidation_guidance` from the source. -/
def get_consolidation_guidance (category : String) (issue_count : ℕ) : ConsolidationGuidance :=
  let category := trimStr (upperStr category)
  let rules := CATEGORY_CONSOLIDATION_RULES category
  let target_ratio := rules.target_ratio
  let max_per_item := rules.max_per_item
  let recommended_items := (max 1 (pyRound ((issue_count : ℚ) / target_ratio))).toNat
  let issues_per_item :=
    if recommended_items > 0 then (pyRound ((issue_count : ℚ) / (recommended_items : ℚ))).toNat
    else issue_count
  if issues_per_item > max_per_item then
    let recommended_items := (max 1 (pyRound ((issue_count : ℚ) / (max_per_item : ℚ)))).toNat
    let issues_per_item := (pyRound ((issue_count : ℚ) / (recommended_items : ℚ))).toNat
    ⟨category, issue_count, recommended_items, issues_per_item, target_ratio, max_per_item⟩
  else
    ⟨category, issue_count, recommended_items, issues_per_item, target_ratio, max_per_item⟩

/-- Result of `validate_category_consolidation`.  `actual_ratio` is the
rounded ratio stored in the result dict; the `actual_items = 0` case is
`inf` in Python (never acceptable), represented here by the
`is_acceptable` flag alone. -/
structure CategoryValidation where
  category : String
  is_acceptable : Bool
  issue_count : ℕ
  actual_items : ℕ
  actual_ratio : ℚ
  recommended_items : ℕ
  target_ratio : ℚ
deriving Repr, DecidableEq

/-- `validate_category_consolidation`: is the category's issues-per-item
ratio within ±30% of its target ratio? -/
def validate_category_consolidation (category : String) (issue_count : ℕ)
    (actual_items : ℕ) : CategoryValidation :=
  let guidance := get_consolidation_guidance category issue_count
  let target_ratio := guidance.target_ratio
  let min_acceptable := target_ratio * (7/10)
  let max_acceptable := target_ratio * (13/10)
  let ratio := (issue_count : ℚ) / (actual_items : ℚ)
  let is_acceptable :=
    decide (actual_items > 0) && decide (min_acceptable ≤ ratio) && decide (ratio ≤ max_acceptable)
  { category := category
    is_acceptable := is_acceptable
    issue_count := issue_count
    actual_items := actual_items
    actual_ratio := pyRoundDec 2 ratio
    recommended_items := guidance.recommended_items
    target_ratio := target_ratio }

/-- Insert an issue into an insertion-ordered association list of groups
keyed by mapped category (`issues_by_category` in
`validate_all_category_consolidation`). -/
def addIssueToGroups (groups : List (String × List Issue)) (cat : String)
    (iss : Issue) : List (String × List Issue) :=
  match groups with
  | [] => [(cat, [iss])]
  | (c, l) :: rest =>
    if c = cat then (c, l ++ [iss]) :: rest else (c, l) :: addIssueToGroups rest cat iss

/-- Group issues by `map_extraction_category_to_pricing`, preserving
insertion order. -/
def issuesByCategory (issues : List Issue) : List (String × List Issue) :=
  issues.foldl
    (fun groups issue =>
      addIssueToGroups groups
        (map_extraction_category_to_pricing issue.sectionName issue.component issue.title)
        issue)
    []

/-- The normalized category key used for grouping estimate items
(`item.get("category", "MISCELLANEOUS")`, uppercased/stripped, empty →
MISCELLANEOUS). -/
def normItemCat (item : PricedRow) : String :=
  if item.category ≠ "" then trimStr (upperStr item.category) else "MISCELLANEOUS"

/-- Group estimate items by normalized category, preserving insertion
order (`items_by_category`). -/
def itemsByCategory (items : List PricedRow) : List (String × List PricedRow) :=
  items.foldl (fun groups item => addToGroups groups (normItemCat item) item) []

/-- Result of `validate_all_category_consolidation`. -/
structure AllValidation where
  all_acceptable : Bool
  category_validations : List (String × CategoryValidation)
  total_issues : ℕ
  total_items : ℕ
  overall_ratio : ℚ
deriving Repr, DecidableEq

/-- `validate_all_category_consolidation`: validate each category that
has at least one estimate item (categories with issues but no items are
logged and skipped). -/
def validate_all_category_consolidation (issues : List Issue)
    (items : List PricedRow) : AllValidation :=
  let issueGroups := issuesByCategory issues
  let itemGroups := itemsByCategory items
  let validations := issueGroups.filterMap fun g =>
    let item_count := ((itemGroups.lookup g.1).getD []).length
    if item_count = 0 then none
    else some (g.1, validate_category_consolidation g.1 g.2.length item_count)
  { all_acceptable := validations.all fun v => v.2.is_acceptable
    category_validations := validations
    total_issues := issues.length
    total_items := items.length
    overall_ratio :=
      if items.length = 0 then 0
      else pyRoundDec 2 ((issues.length : ℚ) / (items.length : ℚ)) }

/-- `QUALITY_WEIGHTS` from the source. -/
def QUALITY_WEIGHTS (factor : String) : ℚ :=
  if factor = "consolidation_quality" then 30/100
  else if factor = "price_consistency" then 25/100
  else if factor = "priority_distribution" then 20/100
  else if factor = "data_completeness" then 15/100
  else if factor = "category_distribution" then 10/100
  else 0

/-- `QUALITY_THRESHOLDS` from the source. -/
def QUALITY_THRESHOLDS (grade : String) : ℚ :=
  if grade = "excellent" then 90
  else if grade = "good" then 80
  else if grade = "acceptable" then 70
  else if grade = "needs_review" then 60
  else 0

/-- One scoring factor as returned by the `score_*` functions: the
rounded score, its weight and the rounded weighted contribution. -/
structure FactorScore where
  score : ℚ
  weight : ℚ
  weighted_score : ℚ
deriving Repr, DecidableEq

/-- The unrounded consolidation-quality score: % of validated categories
within range (100 when every one is, 50 when none were validated). -/
def rawConsolidationScore (issues : List Issue) (items : List PricedRow) : ℚ :=
  let validation := validate_all_category_consolidation issues items
  if validation.all_acceptable then 100
  else
    let category_vals := validation.category_validations
    let acceptable_count := category_vals.countP fun v => v.2.is_acceptable
    if category_vals.length > 0 then
      ((acceptable_count : ℚ) / (category_vals.length : ℚ)) * 100
    else 50

/-- `score_consolidation_quality`. -/
def score_consolidation_quality (issues : List Issue) (items : List PricedRow) : FactorScore :=
  let score := rawConsolidationScore issues items
  let w := QUALITY_WEIGHTS "consolidation_quality"
  ⟨pyRoundDec 1 score, w, pyRoundDec 2 (score * w)⟩

/-- The price-per-issue list of `score_price_consistency`
(`unit_price_usd / consolidated_issue_count`, zero counts skipped). -/
def pricesPerIssue (items : List PricedRow) : List ℚ :=
  items.filterMap fun item =>
    if item.consolidated_issue_count > 0 then
      some (item.unit_price_usd / (item.consolidated_issue_count : ℚ))
    else none

/-- The unrounded price-consistency score: 100 minus 200 × the fraction
of items whose price-per-issue is >3× or <0.3× the median, floored at 0. -/
def rawPriceConsistencyScore (items : List PricedRow) : ℚ :=
  if items.isEmpty then 0
  else
    let prices := pricesPerIssue items
    if prices.isEmpty then 50
    else
      let prices_sorted := prices.insertionSort (· ≤ ·)
      let median := prices_sorted.getD (prices.length / 2) 0
      let outlier_count :=
        prices.countP fun p => decide (p > median * 3) || (decide (median > 0) && decide (p < median * (3/10)))
      let outlier_ratio := (outlier_count : ℚ) / (prices.length : ℚ)
      max 0 (100 - outlier_ratio * 200)

/-- `score_price_consistency` (the early-return branches produce the
same score/weighted values as the uniform rounding, so one shape is used). -/
def score_price_consistency (items : List PricedRow) : FactorScore :=
  let score := rawPriceConsistencyScore items
  let w := QUALITY_WEIGHTS "price_consistency"
  ⟨pyRoundDec 1 score, w, pyRoundDec 2 (score * w)⟩

/-- The normalized priority label counted by
`score_priority_distribution` (empty → MEDIUM; unknown labels are also
counted as MEDIUM). -/
def normPriority (p : String) : String :=
  if p ≠ "" then trimStr (upperStr p) else "MEDIUM"

/-- The unrounded priority-distribution score: 100 minus 125 × the total
absolute deviation of the HIGH/MEDIUM/LOW fractions from 35%/45%/20%,
floored at 0. -/
def rawPriorityDistributionScore (issues : List Issue) : ℚ :=
  if issues.isEmpty then 0
  else
    let ps := issues.map fun issue => normPriority issue.priority
    let countH := ps.countP fun p => p = "HIGH"
    let countL := ps.countP fun p => p = "LOW"
    let countM := ps.countP fun p => p ≠ "HIGH" ∧ p ≠ "LOW"
    let total := issues.length
    let total_deviation :=
      |(countH : ℚ) / (total : ℚ) - 35/100| + |(countM : ℚ) / (total : ℚ) - 45/100|
        + |(countL : ℚ) / (total : ℚ) - 20/100|
    max 0 (100 - total_deviation * 125)

/-- `score_priority_distribution`. -/
def score_priority_distribution (issues : List Issue) : FactorScore :=
  let score := rawPriorityDistributionScore issues
  let w := QUALITY_WEIGHTS "priority_distribution"
  ⟨pyRoundDec 1 score, w, pyRoundDec 2 (score * w)⟩

/-- Does an item have all four required fields non-empty?  The
`unit_price_usd` check always passes: `str()` of a number is never
blank, so only the three string fields can fail. -/
def isCompleteItem (item : PricedRow) : Bool :=
  trimStr item.category ≠ "" && trimStr item.description ≠ "" && trimStr item.notes ≠ ""

/-- The unrounded data-completeness score: % of items with all required
fields populated. -/
def rawDataCompletenessScore (items : List PricedRow) : ℚ :=
  if items.isEmpty then 0
  else ((items.countP fun it => isCompleteItem it : ℕ) : ℚ) / (items.length : ℚ) * 100

/-- `score_data_completeness`. -/
def score_data_completeness (items : List PricedRow) : FactorScore :=
  let score := rawDataCompletenessScore items
  let w := QUALITY_WEIGHTS "data_completeness"
  ⟨pyRoundDec 1 score, w, pyRoundDec 2 (score * w)⟩

/-- Insertion-ordered counting of items per normalized category
(`category_counts` in `score_category_distribution`). -/
def bumpCount (acc : List (String × ℕ)) (k : String) : List (String × ℕ) :=
  match acc with
  | [] => [(k, 1)]
  | (c, n) :: rest =>
    if c = k then (c, n + 1) :: rest else (c, n) :: bumpCount rest k

/-- The unrounded category-distribution score: 100 unless one category
holds more than 60% of the items, then 100 − 250 × the excess, floored
at 0. -/
def rawCategoryDistributionScore (items : List PricedRow) : ℚ :=
  if items.isEmpty then 0
  else
    let category_counts := items.foldl (fun acc it => bumpCount acc (normItemCat it)) []
    let max_count := (category_counts.map fun p => p.2).foldr max 0
    let max_ratio := (max_count : ℚ) / (items.length : ℚ)
    if max_ratio > 6/10 then max 0 (100 - (max_ratio - 6/10) * 250)
    else 100

/-- `score_category_distribution`. -/
def score_category_distribution (items : List PricedRow) : FactorScore :=
  let score := rawCategoryDistributionScore items
  let w := QUALITY_WEIGHTS "category_distribution"
  ⟨pyRoundDec 1 score, w, pyRoundDec 2 (score * w)⟩

/-- The result of `calculate_quality_score`: the rounded overall score,
the grade string (exactly as the source spells it, including
"NEEDS REVIEW"), the five-factor breakdown and the review flag. -/
structure QualityScore where
  overall_score : ℚ
  grade : String
  consolidation : FactorScore
  price_consistency : FactorScore
  priority_distribution : FactorScore
  data_completeness : FactorScore
  category_distribution : FactorScore
  needs_review : Bool
deriving Repr, DecidableEq

/-- The weighted total `calculate_quality_score` sums before grading. -/
def qualityTotalScore (issues : List Issue) (items : List PricedRow) : ℚ :=
  (score_consolidation_quality issues items).weighted_score
    + (score_price_consistency items).weighted_score
    + (score_priority_distribution issues).weighted_score
    + (score_data_completeness items).weighted_score
    + (score_category_distribution items).weighted_score

/-- `calculate_quality_score`: combine the five weighted factors, grade
the total against `QUALITY_THRESHOLDS`, and flag review below 70. -/
def calculate_quality_score (issues : List Issue) (items : List PricedRow) : QualityScore :=
  let total_score := qualityTotalScore issues items
  let grade :=
    if total_score ≥ QUALITY_THRESHOLDS "excellent" then "EXCELLENT"
    else if total_score ≥ QUALITY_THRESHOLDS "good" then "GOOD"
    else if total_score ≥ QUALITY_THRESHOLDS "acceptable" then "ACCEPTABLE"
    else if total_score ≥ QUALITY_THRESHOLDS "needs_review" then "NEEDS REVIEW"
    else "POOR"
  { overall_score := pyRoundDec 1 total_score
    grade := grade
    consolidation := score_consolidation_quality issues items
    price_consistency := score_price_consistency items
    priority_distribution := score_priority_distribution issues
    data_completeness := score_data_completeness items
    category_distribution := score_category_distribution items
    needs_review := decide (total_score < QUALITY_THRESHOLDS "acceptable") }

/-- One entry of the `compute_category_totals` result. -/
structure CategoryTotal where
  category : String
  total_usd : ℚ
deriving Repr, DecidableEq

/-- Dict-building step of `compute_category_totals`: add a line total to
its category's bucket, preserving insertion order. -/
def bumpTotal (acc : List (String × ℚ)) (cat : String) (v : ℚ) : List (String × ℚ) :=
  match acc with
  | [] => [(cat, v)]
  | (c, t) :: rest =>
    if c = cat then (c, t + v) :: rest else (c, t) :: bumpTotal rest cat v

/-- `compute_category_totals`: per-category sums of `line_total_usd`,
sorted by category name. -/
def compute_category_totals (items : List PricedRow) : List CategoryTotal :=
  let totals := items.foldl (fun acc item => bumpTotal acc item.category item.line_total_usd) []
  (totals.insertionSort fun a b => a.1 ≤ b.1).map fun p => ⟨p.1, p.2⟩

/-- The summary record of `compute_summary`. -/
structure Summary where
  total_usd : ℚ
  items_count : ℕ
deriving Repr, DecidableEq

/-- `compute_summary`: grand total and item count. -/
def compute_summary (items : List PricedRow) : Summary :=
  { total_usd := (items.map fun item => item.line_total_usd).sum
    items_count := items.length }

/-- The Consolidator's greedy bundling as the spec states it (for the
refinement claim): accumulate consecutive items into a running bundle,
closing and emitting the bundle and starting a new one with the
overflowing item whenever adding the next item would push the bundle's
issue count above `maxPerItem`; the last open bundle is always emitted. -/
def claimBundles (maxPerItem : ℕ) : List PricedRow → List PricedRow → ℕ → List (List PricedRow)
  | [], bundle, _cnt => [bundle]
  | item :: rest, bundle, cnt =>
    if cnt + item.bundled_issues > maxPerItem ∧ bundle.isEmpty = false then
      bundle :: claimBundles maxPerItem rest [item] item.bundled_issues
    else
      claimBundles maxPerItem rest (bundle ++ [item]) (cnt + item.bundled_issues)

/-- Number a list of bundles consecutively from `k` and materialize each
as a consolidated line item. -/
def numberBundles (category : String) : ℕ → List (List PricedRow) → List PricedRow
  | _, [] => []
  | k, b :: bs => create_consolidated_line_item b category k :: numberBundles category (k + 1) bs

/-- Default row used when indexing Phase-1 output lists. -/
def emptyRow : PricedRow := { original_items := [] }

/-- The `i`-th Phase-1 output row. -/
def phase1Row (oracle : ℕ → Issue → OracleOutcome) (jitter : ℕ → ℚ)
    (issues : List Issue) (i : ℕ) : PricedRow :=
  (priceIssuesLoop oracle jitter issues).getD i emptyRow

/-- The `i`-th input issue (empty-record default out of range). -/
def phase1Issue (issues : List Issue) (i : ℕ) : Issue := issues.getD i {}

/-! ### Concrete inputs used by witnesses and counterexamples -/

/-- A priced row carrying two issues — legal input to the consolidator,
which nevertheless counts it as one. -/
def c2_itemA : PricedRow :=
  { category := "PLUMBING", unit_price_usd := 100, bundled_issues := 2,
    description := "A fix", original_items := [] }

/-- A single-issue priced row. -/
def c2_itemB : PricedRow :=
  { category := "PLUMBING", unit_price_usd := 200, bundled_issues := 1,
    description := "B fix", original_items := [] }


/-- A concrete issue whose text matches no safety and no maintenance
keyword. -/
def c7_issue : Issue := { title := "Doorbell inoperable" }

/-- A concrete item priced below the minor tier's $75 floor. -/
def c9_item : PricedRow := { unit_price_usd := 50, original_items := [] }

/-- A concrete over-consolidated item that carries only an integer
issue count, so the splitter cannot split it. -/
def c3_item : LineItem := { category := "HVAC", bundled_issues := .count 9 }

/-- 28 anonymous member issues for the ROOF split scenario of §8. -/
def roofIssues28 : List Issue := (List.range 28).map fun _ => {}

/-- An over-consolidated ROOF item carrying an actual 28-issue member
list and concrete prices. -/
def roofBigItem : LineItem :=
  { category := "ROOF", bundled_issues := .members roofIssues28,
    base_price := 800, final_price := 900, line_total_usd := 1000 }

/-- A compliant HVAC item with a 2-issue member list (cap 3). -/
def hvacSmallItem : LineItem := { category := "HVAC", bundled_issues := .members [{}, {}] }

/-- Σ of `bundled_issues` over a list of priced rows. -/
def sumBundled (items : List PricedRow) : ℕ :=
  (items.map fun it => it.bundled_issues).sum

/-! ### General lemmas about the rounding helpers -/

theorem pyRound_nonneg {q : ℚ} (h : 0 ≤ q) : 0 ≤ pyRound q := by
  have hf : (0 : ℤ) ≤ ⌊q⌋ := Int.floor_nonneg.mpr h
  unfold pyRound
  split_ifs <;> omega

theorem pyRound_le {q : ℚ} {B : ℤ} (h : q ≤ (B : ℚ)) : pyRound q ≤ B := by
  have hf : ⌊q⌋ ≤ B := by
    have h1 : ⌊q⌋ ≤ ⌊(B : ℚ)⌋ := Int.floor_le_floor h
    simpa using h1
  rcases lt_or_eq_of_le hf with hlt | heq
  · unfold pyRound; split_ifs <;> omega
  · have hr : q - (⌊q⌋ : ℚ) ≤ 0 := by
      have hqB : q ≤ (⌊q⌋ : ℚ) := by rw [heq]; exact h
      linarith
    unfold pyRound
    split_ifs with h1 h2 h3
    · exact hf
    · linarith
    · exact hf
    · push_neg at h1; linarith

theorem pyRoundDec_nonneg (d : ℕ) {q : ℚ} (h : 0 ≤ q) : 0 ≤ pyRoundDec d q := by
  unfold pyRoundDec
  have h1 : (0 : ℤ) ≤ pyRound (q * 10 ^ d) := pyRound_nonneg (by positivity)
  have h2 : (0 : ℚ) ≤ (pyRound (q * 10 ^ d) : ℚ) := by exact_mod_cast h1
  positivity

theorem pyRoundDec_le (d : ℕ) {q : ℚ} {B : ℤ} (h : q ≤ (B : ℚ)) : pyRoundDec d q ≤ (B : ℚ) := by
  have hpow : (0 : ℚ) < 10 ^ d := by positivity
  have h1 : q * 10 ^ d ≤ ((B * 10 ^ d : ℤ) : ℚ) := by
    push_cast
    exact mul_le_mul_of_nonneg_right h (le_of_lt hpow)
  have h2 : pyRound (q * 10 ^ d) ≤ B * 10 ^ d := pyRound_le h1
  have h3 : (pyRound (q * 10 ^ d) : ℚ) ≤ (B : ℚ) * 10 ^ d := by exact_mod_cast h2
  unfold pyRoundDec
  rw [div_le_iff hpow]
  exact h3

theorem pyRound_eq_of_lt_half {q : ℚ} {n : ℤ} (h1 : (n : ℚ) ≤ q) (h2 : q < (n : ℚ) + 1/2) :
    pyRound q = n := by
  have hf : ⌊q⌋ = n := Int.floor_eq_iff.mpr ⟨h1, by linarith⟩
  unfold pyRound
  rw [hf]
  have hc : q - (n : ℚ) < 1/2 := by linarith
  rw [if_pos hc]

theorem pyRound_eq_of_gt_half {q : ℚ} {n : ℤ} (h1 : (n : ℚ) + 1/2 < q) (h2 : q < (n : ℚ) + 1) :
    pyRound q = n + 1 := by
  have hf : ⌊q⌋ = n := Int.floor_eq_iff.mpr ⟨by linarith, h2⟩
  unfold pyRound
  rw [hf]
  have hc1 : ¬ (q - (n : ℚ) < 1/2) := by linarith
  have hc2 : 1/2 < q - (n : ℚ) := by linarith
  rw [if_neg hc1, if_pos hc2]

theorem pyRound_eq_half_even {q : ℚ} {n : ℤ} (h1 : q = (n : ℚ) + 1/2) (h2 : n % 2 = 0) :
    pyRound q = n := by
  have hf : ⌊q⌋ = n := Int.floor_eq_iff.mpr ⟨by rw [h1]; linarith, by rw [h1]; linarith⟩
  unfold pyRound
  rw [hf]
  have hc1 : ¬ (q - (n : ℚ) < 1/2) := by rw [h1]; linarith
  have hc2 : ¬ ((1:ℚ)/2 < q - (n : ℚ)) := by rw [h1]; linarith
  rw [if_neg hc1, if_neg hc2, if_pos h2]

theorem pyRound_eq_half_odd {q : ℚ} {n : ℤ} (h1 : q = (n : ℚ) + 1/2) (h2 : n % 2 ≠ 0) :
    pyRound q = n + 1 := by
  have hf : ⌊q⌋ = n := Int.floor_eq_iff.mpr ⟨by rw [h1]; linarith, by rw [h1]; linarith⟩
  unfold pyRound
  rw [hf]
  have hc1 : ¬ (q - (n : ℚ) < 1/2) := by rw [h1]; linarith
  have hc2 : ¬ ((1:ℚ)/2 < q - (n : ℚ)) := by rw [h1]; linarith
  rw [if_neg hc1, if_neg hc2, if_neg h2]

/-! ### C10 — document consistency: category totals partition the grand total -/

theorem sum_bumpTotal (acc : List (String × ℚ)) (cat : String) (v : ℚ) :
    ((bumpTotal acc cat v).map Prod.snd).sum = (acc.map Prod.snd).sum + v := by
  induction acc with
  | nil => simp [bumpTotal]
  | cons p rest ih =>
    obtain ⟨c, t⟩ := p
    by_cases h : c = cat
    · simp [bumpTotal, h]; ring
    · simp [bumpTotal, h, ih]; ring

theorem sum_fold_bumpTotal (items : List PricedRow) :
    ∀ acc : List (String × ℚ),
      (((items.foldl (fun acc it => bumpTotal acc it.category it.line_total_usd) acc)).map
          Prod.snd).sum
        = (acc.map Prod.snd).sum + ((items.map fun it => it.line_total_usd)).sum := by
  induction items with
  | nil => intro acc; simp
  | cons it rest ih =>
    intro acc
    simp only [List.foldl_cons, ih, sum_bumpTotal, List.map_cons, List.sum_cons]
    ring

/-- C10: `compute_summary`'s `total_usd` equals the sum of the
`total_usd` entries produced by `compute_category_totals` (the
per-category totals partition the grand total), and `items_count` is the
number of items. -/
theorem summary_matches_category_totals (items : List PricedRow) :
    (compute_summary items).total_usd
        = (((compute_category_totals items)).map fun ct => ct.total_usd).sum
    ∧ (compute_summary items).items_count = items.length := by
  constructor
  · unfold compute_summary compute_category_totals
    have hperm :
        ((items.foldl (fun acc it => bumpTotal acc it.category it.line_total_usd) []).insertionSort
            fun a b => a.1 ≤ b.1).Perm
          (items.foldl (fun acc it => bumpTotal acc it.category it.line_total_usd) []) :=
      List.perm_insertionSort _ _
    have hmapsum := (hperm.map Prod.snd).sum_eq
    have hfold := sum_fold_bumpTotal items []
    simp only [List.map_nil, List.sum_nil, zero_add] at hfold
    simp only [List.map_map]
    have hcomp :
        ((fun ct : CategoryTotal => ct.total_usd) ∘ fun p : String × ℚ => CategoryTotal.mk p.1 p.2)
          = Prod.snd := rfl
    rw [hcomp, hmapsum, hfold]
  · rfl

/-! ### C7 — the PriorityClassifier -/

/-- C7 counterexample: an issue matching neither keyword set is
classified "MODERATE", not "MEDIUM" as the claim states. -/
theorem priority_default_is_moderate_not_medium :
    isSafetyIssue c7_issue = false ∧ isMaintenanceIssue c7_issue = false
    ∧ (fix_priority_classification [c7_issue]).map (fun i => i.priority) = ["MODERATE"]
    ∧ ("MODERATE" : String) ≠ "MEDIUM" := by
  refine ⟨by decide, by decide, by decide, by decide⟩

/-- C7 (amended): the classifier overwrites every issue's priority from
the two fixed keyword sets — safety/structural keyword → HIGH, else
maintenance keyword → LOW, else MODERATE — ignoring (and discarding) the
upstream-assigned priority, and leaving the issue's text untouched. -/
theorem priority_classifier_characterization (issues : List Issue) :
    fix_priority_classification issues = issues.map classifyIssue
    ∧ ∀ issue : Issue,
        ((classifyIssue issue).priority
            = if isSafetyIssue issue then "HIGH"
              else if isMaintenanceIssue issue then "LOW" else "MODERATE")
        ∧ (∀ p : String, (classifyIssue { issue with priority := p }).priority
            = (classifyIssue issue).priority)
        ∧ (classifyIssue issue).title = issue.title
        ∧ (classifyIssue issue).description = issue.description
        ∧ (classifyIssue issue).notes = issue.notes := by
  refine ⟨rfl, fun issue => ⟨?_, ?_, ?_, ?_, ?_⟩⟩
  · unfold classifyIssue; split_ifs <;> rfl
  · intro p
    unfold classifyIssue isSafetyIssue isMaintenanceIssue issueFullText
    rfl
  · unfold classifyIssue; split_ifs <;> rfl
  · unfold classifyIssue; split_ifs <;> rfl
  · unfold classifyIssue; split_ifs <;> rfl

/-! ### C9 — the PriceStabilizer and regional adjustment -/

/-- C9 counterexample: a $50 price lies inside the claimed minor tier
$0–300 and is already a $25 multiple, so the claimed clamp would leave
it at $50 — but the code's minor tier floor is $75 and the output is $75. -/
theorem stabilizer_minor_floor_is_75 :
    (stabilize_prices [c9_item]).map (fun it => it.unit_price_usd) = [75]
    ∧ (0 : ℚ) ≤ 50 ∧ (50 : ℚ) ≤ 300 ∧ roundTo25 50 = 50 ∧ (75 : ℚ) ≠ 50 := by
  have h3 : pyRound ((3 : ℚ)) = 3 := pyRound_eq_of_lt_half (by norm_num) (by norm_num)
  have h2 : pyRound ((2 : ℚ)) = 2 := pyRound_eq_of_lt_half (by norm_num) (by norm_num)
  refine ⟨?_, by norm_num, by norm_num, ?_, by norm_num⟩
  · norm_num [stabilize_prices, stabilizeItem, c9_item, priceTierRange, roundTo25, h3]
  · norm_num [roundTo25, h2]

/-- C9 (amended): `stabilize_prices` clamps each item's price into the
tier selected by its own value — minor $75–300, moderate $300–1000,
major $1000–2500, replacement $2500–5000 — and re-rounds to $25,
recomputing the line total; `apply_regional_adjustment` then applies the
region's multiplier (default 1.0) to every price with re-rounding to
$25, except that a multiplier of exactly 1.0 leaves the items untouched
(equivalent, since stabilized prices are already $25 multiples). -/
theorem price_stabilizer_characterization (items : List PricedRow) (region : String) :
    stabilize_prices items = items.map stabilizeItem
    ∧ (∀ it : PricedRow,
        (stabilizeItem it).unit_price_usd
            = roundTo25
                (if it.unit_price_usd < (priceTierRange it.unit_price_usd).1 then
                  (priceTierRange it.unit_price_usd).1
                 else if it.unit_price_usd > (priceTierRange it.unit_price_usd).2 then
                  (priceTierRange it.unit_price_usd).2
                 else it.unit_price_usd)
        ∧ (stabilizeItem it).line_total_usd = (stabilizeItem it).unit_price_usd * (it.qty : ℚ)
        ∧ (stabilizeItem it).qty = it.qty
        ∧ (stabilizeItem it).category = it.category)
    ∧ (∀ q : ℚ, q ≤ 300 → priceTierRange q = (75, 300))
    ∧ (∀ q : ℚ, 300 < q → q ≤ 1000 → priceTierRange q = (300, 1000))
    ∧ (∀ q : ℚ, 1000 < q → q ≤ 2500 → priceTierRange q = (1000, 2500))
    ∧ (∀ q : ℚ, 2500 < q → priceTierRange q = (2500, 5000))
    ∧ TEXAS_REGIONAL_MULTIPLIERS "Default" = 1
    ∧ (TEXAS_REGIONAL_MULTIPLIERS region = 1 → apply_regional_adjustment items region = items)
    ∧ (TEXAS_REGIONAL_MULTIPLIERS region ≠ 1 →
        apply_regional_adjustment items region
          = items.map fun it =>
              { it with
                  unit_price_usd :=
                    roundTo25 (it.unit_price_usd * TEXAS_REGIONAL_MULTIPLIERS region)
                  line_total_usd :=
                    roundTo25 (it.line_total_usd * TEXAS_REGIONAL_MULTIPLIERS region) }) := by
  refine ⟨rfl, fun it => ⟨rfl, rfl, rfl, rfl⟩, ?_, ?_, ?_, ?_, rfl, ?_, ?_⟩
  · intro q hq; unfold priceTierRange; split_ifs <;> first | rfl | linarith
  · intro q hq1 hq2; unfold priceTierRange; split_ifs <;> first | rfl | linarith
  · intro q hq1 hq2; unfold priceTierRange; split_ifs <;> first | rfl | linarith
  · intro q hq; unfold priceTierRange; split_ifs <;> first | rfl | linarith
  · intro h; unfold apply_regional_adjustment; simp [h]
  · intro h; unfold apply_regional_adjustment; simp [h]

/-- Witness for the amended C9 theorem at concrete inputs. -/
theorem price_stabilizer_characterization_witness :
    priceTierRange (50 : ℚ) = (75, 300)
    ∧ apply_regional_adjustment [] "Default" = ([] : List PricedRow)
    ∧ apply_regional_adjustment [] "Austin" = ([] : List PricedRow) := by
  refine ⟨(price_stabilizer_characterization [] "Default").2.2.1 50 (by norm_num), ?_, ?_⟩
  · exact (price_stabilizer_characterization [] "Default").2.2.2.2.2.2.2.1 rfl
  · have hm : TEXAS_REGIONAL_MULTIPLIERS "Austin" ≠ 1 := by
      have heq : TEXAS_REGIONAL_MULTIPLIERS "Austin" = 110/100 := by
        simp [TEXAS_REGIONAL_MULTIPLIERS]
      rw [heq]
      norm_num
    have h := (price_stabilizer_characterization [] "Austin").2.2.2.2.2.2.2.2 hm
    simpa using h

/-! ### C3 / C4 — the EnforcementSplitter -/

theorem ceilDivNat_le_iff {a b k : ℕ} (hb : 0 < b) : ceilDivNat a b ≤ k ↔ a ≤ k * b := by
  unfold ceilDivNat
  rw [← Nat.lt_succ_iff, Nat.div_lt_iff_lt_mul hb]
  have hkb : Nat.succ k * b = k * b + b := Nat.succ_mul k b
  omega

theorem le_mul_ceilDivNat {a b : ℕ} (hb : 0 < b) : a ≤ ceilDivNat a b * b :=
  (ceilDivNat_le_iff hb).mp le_rfl

theorem ceilDivNat_pos {a b : ℕ} (hb : 0 < b) (ha : 0 < a) : 0 < ceilDivNat a b := by
  by_contra h
  push_neg at h
  interval_cases hcd : ceilDivNat a b
  have := (ceilDivNat_le_iff hb).mp (le_of_eq hcd)
  omega

theorem pred_mul_lt_of_ceilDivNat {a b : ℕ} (hb : 0 < b) (ha : 0 < a) :
    (ceilDivNat a b - 1) * b < a := by
  by_contra h
  push_neg at h
  have h2 : ceilDivNat a b ≤ ceilDivNat a b - 1 := (ceilDivNat_le_iff hb).mpr h
  have h3 := ceilDivNat_pos hb ha
  omega

theorem max_per_item_pos (c : String) : 0 < (CATEGORY_CONSOLIDATION_RULES c).max_per_item := by
  unfold CATEGORY_CONSOLIDATION_RULES
  split_ifs <;> decide

theorem flatMap_eq_map_of_singletons {α β : Type} (L : List α) (f : α → List β) (g : α → β)
    (h : ∀ x ∈ L, f x = [g x]) : L.flatMap f = L.map g := by
  induction L with
  | nil => rfl
  | cons x t ih =>
    simp only [List.flatMap_cons, List.map_cons, h x (List.mem_cons_self x t)]
    rw [ih fun y hy => h y (List.mem_cons_of_mem x hy)]
    rfl

theorem flatMap_id_of_fixed {α : Type} (L : List α) (f : α → List α)
    (h : ∀ x ∈ L, f x = [x]) : L.flatMap f = L := by
  rw [flatMap_eq_map_of_singletons L f id h, List.map_id]

/-- The chunk sizes of the enforcement split telescope to the full
member count. -/
theorem sum_chunk_sizes (per c : ℕ) :
    ∀ n : ℕ, (((List.range n)).map fun i => min ((i + 1) * per) c - i * per).sum
      = min (n * per) c := by
  intro n
  induction n with
  | zero => simp
  | succ n ih =>
    rw [List.range_succ, List.map_append, List.sum_append, ih]
    simp only [List.map_cons, List.map_nil, List.sum_cons, List.sum_nil]
    have h1 : (n + 1) * per = n * per + per := by ring
    omega

/-- Items whose member lists are within their category's cap (including
all items carrying only an integer count) pass through `enforceItem`
unchanged. -/
theorem enforceItem_fixed_of_ok (it : LineItem)
    (hok : ∀ l, it.bundled_issues = .members l →
      l.length ≤ (CATEGORY_CONSOLIDATION_RULES it.category).max_per_item) :
    enforceItem it = [it] := by
  unfold enforceItem
  cases hb : it.bundled_issues with
  | count n => rfl
  | other => rfl
  | members l =>
    have hlen := hok l hb
    have hcond : ¬ (l.length > (CATEGORY_CONSOLIDATION_RULES it.category).max_per_item
        ∧ l.isEmpty = false) := by
      intro hc
      omega
    simp only [enforceItemCore]
    rw [if_neg hcond]

/-- The split of an over-cap member list: explicit part list, with no
chunk ever empty. -/
theorem enforceItem_over_eq (it : LineItem) (l : List Issue)
    (hb : it.bundled_issues = .members l)
    (hover : (CATEGORY_CONSOLIDATION_RULES it.category).max_per_item < l.length) :
    enforceItem it
      = (List.range (ceilDivNat l.length (CATEGORY_CONSOLIDATION_RULES it.category).max_per_item)).map
          fun i =>
            mkSplitItem it l.length (CATEGORY_CONSOLIDATION_RULES it.category).max_per_item
              (ceilDivNat l.length (CATEGORY_CONSOLIDATION_RULES it.category).max_per_item) i
              ((l.drop
                  (i * ceilDivNat l.length
                    (ceilDivNat l.length
                      (CATEGORY_CONSOLIDATION_RULES it.category).max_per_item))).take
                (min
                    ((i + 1) * ceilDivNat l.length
                      (ceilDivNat l.length
                        (CATEGORY_CONSOLIDATION_RULES it.category).max_per_item))
                    l.length
                  - i * ceilDivNat l.length
                      (ceilDivNat l.length
                        (CATEGORY_CONSOLIDATION_RULES it.category).max_per_item))) := by
  have hm := max_per_item_pos it.category
  have hc : 0 < l.length := lt_of_le_of_lt (Nat.zero_le _) hover
  have hne : l.isEmpty = false := by
    cases l with
    | nil => simp at hc
    | cons a t => rfl
  unfold enforceItem
  rw [hb]
  simp only [enforceItemCore]
  rw [if_pos ⟨hover, hne⟩]
  unfold splitMembers
  simp only
  set m := (CATEGORY_CONSOLIDATION_RULES it.category).max_per_item with hm_def
  set num := ceilDivNat l.length m with hnum_def
  set per := ceilDivNat l.length num with hper_def
  have hnum_pos : 0 < num := ceilDivNat_pos hm hc
  have hper_pos : 0 < per := ceilDivNat_pos hnum_pos hc
  have hper_le_m : per ≤ m := by
    rw [hper_def, ceilDivNat_le_iff hnum_pos, mul_comm]
    exact le_mul_ceilDivNat hm
  have hpred : (num - 1) * m < l.length := pred_mul_lt_of_ceilDivNat hm hc
  apply flatMap_eq_map_of_singletons
  intro i hi
  rw [List.mem_range] at hi
  have hstart : i * per < l.length := by
    have h1 : i * per ≤ (num - 1) * per := by
      apply Nat.mul_le_mul_right
      omega
    have h2 : (num - 1) * per ≤ (num - 1) * m := Nat.mul_le_mul_left _ hper_le_m
    omega
  have hchunk_ne :
      ((l.drop (i * per)).take (min ((i + 1) * per) l.length - i * per)).isEmpty = false := by
    have hlen :
        ((l.drop (i * per)).take (min ((i + 1) * per) l.length - i * per)).length
          = min (min ((i + 1) * per) l.length - i * per) (l.length - i * per) := by
      rw [List.length_take, List.length_drop]
    have hlt : i * per < (i + 1) * per := by
      have : (i + 1) * per = i * per + per := by ring
      omega
    have hpos :
        0 < ((l.drop (i * per)).take (min ((i + 1) * per) l.length - i * per)).length := by
      rw [hlen]
      omega
    cases hchunk : (l.drop (i * per)).take (min ((i + 1) * per) l.length - i * per) with
    | nil => rw [hchunk] at hpos; simp at hpos
    | cons a t => rfl
  rw [if_neg (by simp [hchunk_ne])]

/-- Per-item count preservation of the enforcement splitter. -/
theorem enforceItem_count_preserving (it : LineItem) :
    ((enforceItem it).map lineItemIssueCount).sum = lineItemIssueCount it := by
  cases hb : it.bundled_issues with
  | count n =>
    rw [enforceItem_fixed_of_ok it (fun l hl => by rw [hb] at hl; cases hl)]
    simp
  | other =>
    rw [enforceItem_fixed_of_ok it (fun l hl => by rw [hb] at hl; cases hl)]
    simp
  | members l =>
    by_cases hover : (CATEGORY_CONSOLIDATION_RULES it.category).max_per_item < l.length
    · have hm := max_per_item_pos it.category
      have hc : 0 < l.length := lt_of_le_of_lt (Nat.zero_le _) hover
      rw [enforceItem_over_eq it l hb hover]
      rw [List.map_map]
      set m := (CATEGORY_CONSOLIDATION_RULES it.category).max_per_item with hm_def
      set num := ceilDivNat l.length m with hnum_def
      set per := ceilDivNat l.length num with hper_def
      have hnum_pos : 0 < num := ceilDivNat_pos hm hc
      have hper_pos : 0 < per := ceilDivNat_pos hnum_pos hc
      have hcount : ∀ i : ℕ,
          (lineItemIssueCount ∘ fun i =>
              mkSplitItem it l.length m num i
                ((l.drop (i * per)).take (min ((i + 1) * per) l.length - i * per))) i
            = min ((i + 1) * per) l.length - i * per := by
        intro i
        show ((l.drop (i * per)).take (min ((i + 1) * per) l.length - i * per)).length
          = min ((i + 1) * per) l.length - i * per
        rw [List.length_take, List.length_drop]
        omega
      rw [List.map_congr_left fun i _ => hcount i]
      rw [sum_chunk_sizes per l.length num]
      have hlge : l.length ≤ num * per := by
        have h := le_mul_ceilDivNat hnum_pos (a := l.length)
        rw [← hper_def, Nat.mul_comm] at h
        exact h
      have : lineItemIssueCount it = l.length := by
        unfold lineItemIssueCount; rw [hb]
      omega
    · push_neg at hover
      rw [enforceItem_fixed_of_ok it (fun l' hl' => by rw [hb] at hl'; cases hl'; exact hover)]
      simp

/-- Every part produced by `enforceItem` has its member list (when it
carries one) within the cap of its own category. -/
theorem enforceItem_parts_ok (it : LineItem) :
    ∀ part ∈ enforceItem it, ∀ l',
      part.bundled_issues = .members l' →
        l'.length ≤ (CATEGORY_CONSOLIDATION_RULES part.category).max_per_item := by
  intro part hpart l' hl'
  cases hb : it.bundled_issues with
  | count n =>
    rw [enforceItem_fixed_of_ok it (fun l hl => by rw [hb] at hl; cases hl)] at hpart
    rw [List.mem_singleton] at hpart
    subst hpart
    rw [hb] at hl'
    cases hl'
  | other =>
    rw [enforceItem_fixed_of_ok it (fun l hl => by rw [hb] at hl; cases hl)] at hpart
    rw [List.mem_singleton] at hpart
    subst hpart
    rw [hb] at hl'
    cases hl'
  | members l =>
    by_cases hover : (CATEGORY_CONSOLIDATION_RULES it.category).max_per_item < l.length
    · have hm := max_per_item_pos it.category
      have hc : 0 < l.length := lt_of_le_of_lt (Nat.zero_le _) hover
      rw [enforceItem_over_eq it l hb hover] at hpart
      rw [List.mem_map] at hpart
      set m := (CATEGORY_CONSOLIDATION_RULES it.category).max_per_item with hm_def
      set num := ceilDivNat l.length m with hnum_def
      set per := ceilDivNat l.length num with hper_def
      have hnum_pos : 0 < num := ceilDivNat_pos hm hc
      have hper_le_m : per ≤ m := by
        rw [hper_def, ceilDivNat_le_iff hnum_pos, mul_comm]
        exact le_mul_ceilDivNat hm
      obtain ⟨i, _, hpart_eq⟩ := hpart
      subst hpart_eq
      simp only [mkSplitItem, BundledField.members.injEq] at hl'
      subst hl'
      show ((l.drop (i * per)).take (min ((i + 1) * per) l.length - i * per)).length ≤ m
      rw [List.length_take, List.length_drop]
      have h1 : (i + 1) * per = i * per + per := by ring
      omega
    · push_neg at hover
      rw [enforceItem_fixed_of_ok it (fun l2 hl2 => by
          rw [hb] at hl2; cases hl2; exact hover)] at hpart
      rw [List.mem_singleton] at hpart
      subst hpart
      rw [hb] at hl'
      cases hl'
      exact hover

/-- Field-level characterization of every part of an over-cap split:
same category/priority/discount, an equal `1/num_splits` share of
`base_price`, `final_price` and `line_total_usd`, the forced-split note,
a never-empty member list of at most `ceil(count/num_splits)` issues,
and the "- Part i of n" description suffix. -/
theorem enforceItem_split_part_fields (it : LineItem) (l : List Issue)
    (hb : it.bundled_issues = .members l)
    (hover : (CATEGORY_CONSOLIDATION_RULES it.category).max_per_item < l.length) :
    ∀ part ∈ enforceItem it,
      part.category = it.category
      ∧ part.base_price = it.base_price
          / ((ceilDivNat l.length (CATEGORY_CONSOLIDATION_RULES it.category).max_per_item : ℕ) : ℚ)
      ∧ part.final_price = it.final_price
          / ((ceilDivNat l.length (CATEGORY_CONSOLIDATION_RULES it.category).max_per_item : ℕ) : ℚ)
      ∧ part.line_total_usd = it.line_total_usd
          / ((ceilDivNat l.length (CATEGORY_CONSOLIDATION_RULES it.category).max_per_item : ℕ) : ℚ)
      ∧ part.priority = it.priority
      ∧ part.discount_applied = it.discount_applied
      ∧ part.notes = "Auto-split from over-consolidated item (" ++ toString l.length
          ++ " issues > " ++ toString (CATEGORY_CONSOLIDATION_RULES it.category).max_per_item
          ++ " max)"
      ∧ (∃ chunk : List Issue, part.bundled_issues = .members chunk ∧ chunk ≠ []
          ∧ chunk.length
              ≤ ceilDivNat l.length
                  (ceilDivNat l.length (CATEGORY_CONSOLIDATION_RULES it.category).max_per_item))
      ∧ ∃ i : ℕ,
          i < ceilDivNat l.length (CATEGORY_CONSOLIDATION_RULES it.category).max_per_item
          ∧ part.description = it.description ++ " - Part " ++ toString (i + 1) ++ " of "
              ++ toString (ceilDivNat l.length (CATEGORY_CONSOLIDATION_RULES it.category).max_per_item) := by
  intro part hpart
  have hm := max_per_item_pos it.category
  have hc : 0 < l.length := lt_of_le_of_lt (Nat.zero_le _) hover
  rw [enforceItem_over_eq it l hb hover] at hpart
  rw [List.mem_map] at hpart
  obtain ⟨i, hi, hpart_eq⟩ := hpart
  rw [List.mem_range] at hi
  subst hpart_eq
  set m := (CATEGORY_CONSOLIDATION_RULES it.category).max_per_item with hm_def
  set num := ceilDivNat l.length m with hnum_def
  set per := ceilDivNat l.length num with hper_def
  have hnum_pos : 0 < num := ceilDivNat_pos hm hc
  have hper_pos : 0 < per := ceilDivNat_pos hnum_pos hc
  have hper_le_m : per ≤ m := by
    rw [hper_def, ceilDivNat_le_iff hnum_pos, mul_comm]
    exact le_mul_ceilDivNat hm
  have hpred : (num - 1) * m < l.length := pred_mul_lt_of_ceilDivNat hm hc
  have hstart : i * per < l.length := by
    have h1 : i * per ≤ (num - 1) * per := Nat.mul_le_mul_right _ (by omega)
    have h2 : (num - 1) * per ≤ (num - 1) * m := Nat.mul_le_mul_left _ hper_le_m
    omega
  have hsucc : (i + 1) * per = i * per + per := Nat.succ_mul i per
  have hchunk_len :
      ((l.drop (i * per)).take (min ((i + 1) * per) l.length - i * per)).length
        = min ((i + 1) * per) l.length - i * per := by
    rw [List.length_take, List.length_drop]
    omega
  refine ⟨rfl, rfl, rfl, rfl, rfl, rfl, rfl, ⟨_, rfl, ?_, ?_⟩, ⟨i, hi, rfl⟩⟩
  · apply List.length_pos.mp
    rw [hchunk_len]
    omega
  · rw [hchunk_len]
    omega

/-- C3 counterexample: an item whose `bundled_issues` is an integer
count of 9 in HVAC (cap 3) passes through the EnforcementSplitter
unchanged, still carrying 9 issues. -/
theorem enforcement_cannot_split_integer_counts :
    enforce_consolidation_limits [c3_item] [] = [c3_item]
    ∧ lineItemIssueCount c3_item = 9
    ∧ (CATEGORY_CONSOLIDATION_RULES c3_item.category).max_per_item = 3 := by
  refine ⟨rfl, rfl, by decide⟩

/-- C3 (amended): for items that carry an actual member-issue list, the
EnforcementSplitter guarantees `bundled_issues ≤ max_per_item` on
output: compliant items pass through unchanged; an over-cap member list
is split into `ceil(count/max)` never-empty parts of at most
`ceil(count/num_splits) ≤ max` members each (no member dropped), each
part receiving an equal `1/num_splits` share of every price and the
auto-split note.  Items carrying only an integer count (or an
unrecognized shape) pass through unchanged even when over the cap. -/
theorem enforcement_splitter_characterization (items : List LineItem)
    (all_issues : List Issue) :
    (∀ it ∈ enforce_consolidation_limits items all_issues, ∀ l,
        it.bundled_issues = .members l →
          l.length ≤ (CATEGORY_CONSOLIDATION_RULES it.category).max_per_item)
    ∧ (∀ it : LineItem,
        (∀ l, it.bundled_issues = .members l →
            l.length ≤ (CATEGORY_CONSOLIDATION_RULES it.category).max_per_item) →
          enforceItem it = [it])
    ∧ (∀ it : LineItem, ((enforceItem it).map lineItemIssueCount).sum = lineItemIssueCount it)
    ∧ (∀ it : LineItem, ∀ l, it.bundled_issues = .members l →
        (CATEGORY_CONSOLIDATION_RULES it.category).max_per_item < l.length →
          (enforceItem it).length
            = ceilDivNat l.length (CATEGORY_CONSOLIDATION_RULES it.category).max_per_item)
    ∧ (∀ it : LineItem, ∀ l, it.bundled_issues = .members l →
        (CATEGORY_CONSOLIDATION_RULES it.category).max_per_item < l.length →
          ∀ part ∈ enforceItem it,
            part.category = it.category
            ∧ part.base_price = it.base_price
                / ((ceilDivNat l.length
                    (CATEGORY_CONSOLIDATION_RULES it.category).max_per_item : ℕ) : ℚ)
            ∧ part.final_price = it.final_price
                / ((ceilDivNat l.length
                    (CATEGORY_CONSOLIDATION_RULES it.category).max_per_item : ℕ) : ℚ)
            ∧ part.line_total_usd = it.line_total_usd
                / ((ceilDivNat l.length
                    (CATEGORY_CONSOLIDATION_RULES it.category).max_per_item : ℕ) : ℚ)
            ∧ part.priority = it.priority
            ∧ part.discount_applied = it.discount_applied
            ∧ part.notes = "Auto-split from over-consolidated item (" ++ toString l.length
                ++ " issues > "
                ++ toString (CATEGORY_CONSOLIDATION_RULES it.category).max_per_item
                ++ " max)"
            ∧ (∃ chunk : List Issue, part.bundled_issues = .members chunk ∧ chunk ≠ []
                ∧ chunk.length
                    ≤ ceilDivNat l.length
                        (ceilDivNat l.length
                          (CATEGORY_CONSOLIDATION_RULES it.category).max_per_item))
            ∧ ∃ i : ℕ,
                i < ceilDivNat l.length (CATEGORY_CONSOLIDATION_RULES it.category).max_per_item
                ∧ part.description = it.description ++ " - Part " ++ toString (i + 1)
                    ++ " of "
                    ++ toString
                      (ceilDivNat l.length
                        (CATEGORY_CONSOLIDATION_RULES it.category).max_per_item)) := by
  refine ⟨?_, enforceItem_fixed_of_ok, enforceItem_count_preserving, ?_,
    fun it l hb hover => enforceItem_split_part_fields it l hb hover⟩
  · intro it hit l hl
    unfold enforce_consolidation_limits at hit
    rw [List.mem_flatMap] at hit
    obtain ⟨src, _, hmem⟩ := hit
    exact enforceItem_parts_ok src it hmem l hl
  · intro it l hb hover
    rw [enforceItem_over_eq it l hb hover, List.length_map, List.length_range]

/-- Witness for the amended C3 theorem: a ROOF item with 28 member
issues is split into 4 parts, its first part carrying the forced-split
note and a quarter of the $1000 line total; a compliant 2-member HVAC
item passes through unchanged. -/
theorem enforcement_splitter_characterization_witness :
    (enforceItem roofBigItem).length = 4
    ∧ enforceItem hvacSmallItem = [hvacSmallItem]
    ∧ ((enforceItem roofBigItem).getD 0 c3_item).notes
        = "Auto-split from over-consolidated item (28 issues > 8 max)"
    ∧ ((enforceItem roofBigItem).getD 0 c3_item).line_total_usd = 1000 / 4 := by
  have hchar := enforcement_splitter_characterization [] []
  have hlen : (enforceItem roofBigItem).length = 4 := by
    rw [hchar.2.2.2.1 roofBigItem roofIssues28 rfl (by decide)]
    decide
  have hmem : (enforceItem roofBigItem).getD 0 c3_item ∈ enforceItem roofBigItem := by
    have h0 : 0 < (enforceItem roofBigItem).length := by rw [hlen]; decide
    rw [List.getD_eq_get (enforceItem roofBigItem) c3_item h0]
    exact List.get_mem _ _ _
  have hpart := hchar.2.2.2.2 roofBigItem roofIssues28 rfl (by decide)
    ((enforceItem roofBigItem).getD 0 c3_item) hmem
  have hnum : ceilDivNat roofIssues28.length
      (CATEGORY_CONSOLIDATION_RULES roofBigItem.category).max_per_item = 4 := by decide
  refine ⟨hlen, ?_, ?_, ?_⟩
  · exact hchar.2.1 hvacSmallItem (fun l hl => by cases hl; decide)
  · rw [hpart.2.2.2.2.2.2.1]
    decide
  · rw [hpart.2.2.2.1, hnum]
    norm_num [roofBigItem]

/-- C4: the EnforcementSplitter is idempotent — re-running it on its own
output (with any `all_issues` arguments) is a no-op. -/
theorem enforcement_splitter_idempotent (items : List LineItem)
    (all_issues all_issues' : List Issue) :
    enforce_consolidation_limits (enforce_consolidation_limits items all_issues) all_issues'
      = enforce_consolidation_limits items all_issues := by
  unfold enforce_consolidation_limits
  apply flatMap_id_of_fixed
  intro part hpart
  rw [List.mem_flatMap] at hpart
  obtain ⟨src, _, hmem⟩ := hpart
  exact enforceItem_fixed_of_ok part (enforceItem_parts_ok src part hmem)

/-! ### C2 / C5 — the Consolidator -/

theorem flatMap_congr_mem {α β : Type} (L : List α) (f g : α → List β)
    (h : ∀ x ∈ L, f x = g x) : L.flatMap f = L.flatMap g := by
  induction L with
  | nil => rfl
  | cons x t ih =>
    simp only [List.flatMap_cons, h x (List.mem_cons_self x t)]
    rw [ih fun y hy => h y (List.mem_cons_of_mem x hy)]

theorem sumBundled_append (a b : List PricedRow) :
    sumBundled (a ++ b) = sumBundled a + sumBundled b := by
  unfold sumBundled
  rw [List.map_append, List.sum_append]

theorem sumBundled_flatMap {α : Type} (L : List α) (f : α → List PricedRow) :
    sumBundled (L.flatMap f) = (L.map fun x => sumBundled (f x)).sum := by
  induction L with
  | nil => rfl
  | cons x t ih => simp only [List.flatMap_cons, sumBundled_append, ih, List.map_cons,
      List.sum_cons]

/-- The code's interleaved greedy loop equals the claim-side bundling
followed by numbering and materialization, for any nonempty open bundle. -/
theorem greedy_eq_numberBundles (m : ℕ) (c : String) :
    ∀ (l bundle : List PricedRow) (cnt k : ℕ), bundle.isEmpty = false →
      greedyLoop m c l bundle cnt k = numberBundles c k (claimBundles m l bundle cnt) := by
  intro l
  induction l with
  | nil =>
    intro bundle cnt k hb
    unfold greedyLoop claimBundles numberBundles
    rw [hb]
    rfl
  | cons item rest ih =>
    intro bundle cnt k hb
    unfold greedyLoop claimBundles
    by_cases hc : cnt + item.bundled_issues > m ∧ bundle.isEmpty = false
    · rw [if_pos hc, if_pos hc]
      unfold numberBundles
      rw [ih [item] item.bundled_issues (k + 1) rfl]
    · rw [if_neg hc, if_neg hc]
      apply ih
      cases bundle <;> rfl

/-- The first step of the code's greedy loop from the empty bundle. -/
theorem greedy_start_eq (m : ℕ) (c : String) (x : PricedRow) (rest : List PricedRow) :
    greedyLoop m c (x :: rest) [] 0 1 = numberBundles c 1 (claimBundles m (x :: rest) [] 0) := by
  unfold greedyLoop claimBundles
  have hcond : ¬ (0 + x.bundled_issues > m ∧ ([] : List PricedRow).isEmpty = false) := by
    simp
  rw [if_neg hcond, if_neg hcond]
  exact greedy_eq_numberBundles m c rest ([] ++ [x]) (0 + x.bundled_issues) 1 rfl

/-- Groups produced by `addToGroups` are nonempty when the accumulator's
groups are. -/
theorem addToGroups_nonempty (acc : List (String × List PricedRow)) (c : String)
    (it : PricedRow) (hacc : ∀ g ∈ acc, g.2 ≠ []) :
    ∀ g ∈ addToGroups acc c it, g.2 ≠ [] := by
  induction acc with
  | nil =>
    intro g hg
    rw [addToGroups] at hg
    rw [List.mem_singleton] at hg
    subst hg
    simp
  | cons p rest ih =>
    intro g hg
    obtain ⟨c0, l0⟩ := p
    rw [addToGroups] at hg
    by_cases hceq : c0 = c
    · rw [if_pos hceq] at hg
      rcases List.mem_cons.mp hg with hg1 | hg2
      · subst hg1; simp
      · exact hacc g (List.mem_cons_of_mem _ hg2)
    · rw [if_neg hceq] at hg
      rcases List.mem_cons.mp hg with hg1 | hg2
      · subst hg1
        exact hacc (c0, l0) (List.mem_cons_self _ _)
      · exact ih (fun g' hg' => hacc g' (List.mem_cons_of_mem _ hg')) g hg2

/-- Every group produced by `groupByCategory` is nonempty. -/
theorem groupByCategory_nonempty (items : List PricedRow) :
    ∀ g ∈ groupByCategory items, g.2 ≠ [] := by
  unfold groupByCategory
  suffices h : ∀ (l : List PricedRow) (acc : List (String × List PricedRow)),
      (∀ g ∈ acc, g.2 ≠ []) →
      ∀ g ∈ l.foldl (fun groups item => addToGroups groups item.category item) acc, g.2 ≠ [] by
    exact h items [] (by intro g hg; cases hg)
  intro l
  induction l with
  | nil => intro acc hacc; simpa using hacc
  | cons x t ih =>
    intro acc hacc
    simp only [List.foldl_cons]
    exact ih _ (addToGroups_nonempty acc x.category x hacc)

/-- C5: the Consolidator is exactly the claim's algorithm — per-category
groups in insertion order, singleton groups emitted unchanged, larger
groups bundled greedily against the category's `max_per_item` (closing a
bundle whenever the next item would push it over), each bundle priced as
`round_to_25(Σ member.unit_price × (1 − discount))` with discount 0% /
5% / 10% for 1 / 2 / ≥3 members. -/
theorem consolidator_matches_claim (priced_items : List PricedRow) (ni : List Issue) :
    code_based_consolidation priced_items ni
      = (groupByCategory priced_items).flatMap (fun g =>
          if g.2.length = 1 then g.2
          else numberBundles g.1 1
            (claimBundles (CATEGORY_CONSOLIDATION_RULES g.1).max_per_item g.2 [] 0))
    ∧ (∀ (b : List PricedRow) (cat : String) (n : ℕ),
        (create_consolidated_line_item b cat n).unit_price_usd
          = roundTo25 ((b.map fun it => it.unit_price_usd).sum
              * (1 - bundleDiscountPct b.length / 100)))
    ∧ bundleDiscountPct 1 = 0
    ∧ bundleDiscountPct 2 = 5
    ∧ (∀ n : ℕ, 3 ≤ n → bundleDiscountPct n = 10) := by
  refine ⟨?_, fun b cat n => rfl, rfl, rfl, fun n h => by rw [bundleDiscountPct, if_pos h]⟩
  unfold code_based_consolidation
  apply flatMap_congr_mem
  intro g hg
  by_cases hlen : g.2.length = 1
  · rw [if_pos hlen, if_pos hlen]
  · rw [if_neg hlen, if_neg hlen]
    have hne := groupByCategory_nonempty priced_items g hg
    cases hgl : g.2 with
    | nil => exact absurd hgl hne
    | cons x rest => exact greedy_start_eq _ g.1 x rest

/-- Witness for C5's discount-table clause at a concrete member count. -/
theorem consolidator_matches_claim_witness : bundleDiscountPct 5 = 10 :=
  (consolidator_matches_claim [] []).2.2.2.2 5 (by decide)

/-- C2 counterexample: two PLUMBING rows carrying 2 and 1 issues (3
issues total, matching a 3-issue input list) consolidate into one item
with `bundled_issues = 2` — the number of member rows, not the sum of
their issue counts. -/
theorem consolidated_bundled_is_member_count_not_sum :
    sumBundled (code_based_consolidation [c2_itemA, c2_itemB] [{}, {}, {}]) = 2
    ∧ ([{}, {}, {}] : List Issue).length = 3
    ∧ (2 : ℕ) ≠ 3 := by
  refine ⟨by decide, rfl, by decide⟩

theorem sumBundled_singleton (x : PricedRow) : sumBundled [x] = x.bundled_issues := by
  unfold sumBundled
  simp

/-- Σ of `bundled_issues` over the code's greedy loop output counts one
per member row (plus the open bundle's rows). -/
theorem sumBundled_greedyLoop (m : ℕ) (c : String) :
    ∀ (l bundle : List PricedRow) (cnt k : ℕ),
      sumBundled (greedyLoop m c l bundle cnt k) = bundle.length + l.length := by
  intro l
  induction l with
  | nil =>
    intro bundle cnt k
    unfold greedyLoop
    cases bundle with
    | nil => rfl
    | cons a t =>
      rw [if_neg (by simp), sumBundled_singleton]
      rfl
  | cons item rest ih =>
    intro bundle cnt k
    unfold greedyLoop
    by_cases hc : cnt + item.bundled_issues > m ∧ bundle.isEmpty = false
    · rw [if_pos hc]
      have hsplit : sumBundled (create_consolidated_line_item bundle c k ::
          greedyLoop m c rest [item] item.bundled_issues (k + 1))
          = bundle.length + sumBundled (greedyLoop m c rest [item] item.bundled_issues (k + 1)) := by
        unfold sumBundled
        simp [create_consolidated_line_item]
      rw [hsplit, ih]
      simp only [List.length_cons, List.length_nil]
      omega
    · rw [if_neg hc, ih]
      simp only [List.length_append, List.length_cons, List.length_nil]
      omega

/-- The total number of rows held in an insertion-ordered group list. -/
theorem addToGroups_size (acc : List (String × List PricedRow)) (c : String) (it : PricedRow) :
    ((addToGroups acc c it).map fun g => g.2.length).sum
      = ((acc.map fun g => g.2.length)).sum + 1 := by
  induction acc with
  | nil => rfl
  | cons p rest ih =>
    obtain ⟨c0, l0⟩ := p
    rw [addToGroups]
    by_cases hceq : c0 = c
    · rw [if_pos hceq]
      simp only [List.map_cons, List.sum_cons, List.length_append, List.length_singleton]
      omega
    · rw [if_neg hceq]
      simp only [List.map_cons, List.sum_cons, ih]
      omega

theorem groupByCategory_size (items : List PricedRow) :
    (((groupByCategory items).map fun g => g.2.length)).sum = items.length := by
  unfold groupByCategory
  suffices h : ∀ (l : List PricedRow) (acc : List (String × List PricedRow)),
      ((l.foldl (fun groups item => addToGroups groups item.category item) acc).map
          fun g => g.2.length).sum
        = ((acc.map fun g => g.2.length)).sum + l.length by
    simpa using h items []
  intro l
  induction l with
  | nil => intro acc; simp
  | cons x t ih =>
    intro acc
    simp only [List.foldl_cons, ih, addToGroups_size, List.length_cons]
    omega

/-- `addToGroups` preserves any per-row invariant of the stored groups. -/
theorem addToGroups_pred (P : PricedRow → Prop) (acc : List (String × List PricedRow))
    (c : String) (it : PricedRow) (hacc : ∀ g ∈ acc, ∀ x ∈ g.2, P x) (hit : P it) :
    ∀ g ∈ addToGroups acc c it, ∀ x ∈ g.2, P x := by
  induction acc with
  | nil =>
    intro g hg x hx
    rw [addToGroups, List.mem_singleton] at hg
    subst hg
    rw [List.mem_singleton] at hx
    subst hx
    exact hit
  | cons p rest ih =>
    intro g hg x hx
    obtain ⟨c0, l0⟩ := p
    rw [addToGroups] at hg
    by_cases hceq : c0 = c
    · rw [if_pos hceq] at hg
      rcases List.mem_cons.mp hg with hg1 | hg2
      · subst hg1
        rcases List.mem_append.mp hx with hx1 | hx2
        · exact hacc (c0, l0) (List.mem_cons_self _ _) x hx1
        · rw [List.mem_singleton] at hx2; subst hx2; exact hit
      · exact hacc g (List.mem_cons_of_mem _ hg2) x hx
    · rw [if_neg hceq] at hg
      rcases List.mem_cons.mp hg with hg1 | hg2
      · subst hg1; exact hacc (c0, l0) (List.mem_cons_self _ _) x hx
      · exact ih (fun g' hg' => hacc g' (List.mem_cons_of_mem _ hg')) g hg2 x hx

/-- Rows stored in `groupByCategory` groups all satisfy any invariant of
the input rows (instantiated for C2 at `bundled_issues = 1`). -/
theorem groupByCategory_all_ones (items : List PricedRow)
    (h1 : ∀ it ∈ items, it.bundled_issues = 1) :
    ∀ g ∈ groupByCategory items, ∀ x ∈ g.2, x.bundled_issues = 1 := by
  unfold groupByCategory
  suffices h : ∀ (l : List PricedRow) (acc : List (String × List PricedRow)),
      (∀ it ∈ l, it.bundled_issues = 1) →
      (∀ g ∈ acc, ∀ x ∈ g.2, x.bundled_issues = 1) →
      ∀ g ∈ l.foldl (fun groups item => addToGroups groups item.category item) acc,
        ∀ x ∈ g.2, x.bundled_issues = 1 by
    exact h items [] h1 (by intro g hg; cases hg)
  intro l
  induction l with
  | nil => intro acc _ hacc; simpa using hacc
  | cons y t ih =>
    intro acc hl hacc
    simp only [List.foldl_cons]
    exact ih _ (fun it hit => hl it (List.mem_cons_of_mem _ hit))
      (addToGroups_pred (fun x => x.bundled_issues = 1) acc y.category y hacc
        (hl y (List.mem_cons_self _ _)))

/-- C2 (amended): a consolidated item's `bundled_issues` equals the
number of member rows merged into it (not the sum of their counts); when
every input row carries `bundled_issues = 1` — the Phase-1 postcondition,
one row per issue — Σ `bundled_issues` over the consolidation output
equals the number of input rows, i.e. the number of input issues. -/
theorem consolidation_count_preservation (priced_items : List PricedRow) (ni : List Issue)
    (h1 : ∀ it ∈ priced_items, it.bundled_issues = 1) :
    sumBundled (code_based_consolidation priced_items ni) = priced_items.length
    ∧ ∀ (b : List PricedRow) (cat : String) (n : ℕ),
        (create_consolidated_line_item b cat n).bundled_issues = b.length := by
  refine ⟨?_, fun b cat n => rfl⟩
  unfold code_based_consolidation
  rw [sumBundled_flatMap]
  have hgroups : ∀ g ∈ groupByCategory priced_items,
      sumBundled
          (if g.2.length = 1 then g.2
           else greedyLoop (CATEGORY_CONSOLIDATION_RULES g.1).max_per_item g.1 g.2 [] 0 1)
        = g.2.length := by
    intro g hg
    by_cases hlen : g.2.length = 1
    · rw [if_pos hlen]
      cases hgl : g.2 with
      | nil => rw [hgl] at hlen; simp at hlen
      | cons x rest =>
        have hrest : rest = [] := by
          rw [hgl] at hlen
          simpa using hlen
        subst hrest
        have hxg : x ∈ g.2 := by rw [hgl]; exact List.mem_cons_self x []
        have hx := groupByCategory_all_ones priced_items h1 g hg x hxg
        rw [sumBundled_singleton, hx]
        rfl
    · rw [if_neg hlen, sumBundled_greedyLoop]
      simp
  rw [List.map_congr_left hgroups]
  exact groupByCategory_size priced_items

/-- Witness for the amended C2 theorem on a concrete single-issue row. -/
theorem consolidation_count_preservation_witness :
    sumBundled (code_based_consolidation [c2_itemB] []) = 1 :=
  (consolidation_count_preservation [c2_itemB] []
      (by intro it hit; rw [List.mem_singleton] at hit; subst hit; rfl)).1

/-! ### C1 / C8 — the PricingOracleAdapter -/

theorem priceLoopAux_length (oracle : ℕ → Issue → OracleOutcome) (jitter : ℕ → ℚ) :
    ∀ (l : List Issue) (k : ℕ), (priceLoopAux oracle jitter k l).length = l.length := by
  intro l
  induction l with
  | nil => intro k; rfl
  | cons a t ih => intro k; simp [priceLoopAux, ih]

theorem priceLoopAux_getD (oracle : ℕ → Issue → OracleOutcome) (jitter : ℕ → ℚ) :
    ∀ (l : List Issue) (k i : ℕ), i < l.length →
      (priceLoopAux oracle jitter k l).getD i emptyRow
        = priceIssue oracle jitter (k + i) (l.getD i {}) := by
  intro l
  induction l with
  | nil => intro k i hi; simp at hi
  | cons a t ih =>
    intro k i hi
    cases i with
    | zero => rfl
    | succ j =>
      have hj : j < t.length := by simpa using hi
      show (priceLoopAux oracle jitter (k + 1) t).getD j emptyRow
        = priceIssue oracle jitter (k + (j + 1)) (t.getD j {})
      rw [ih (k + 1) j hj]
      have hidx : k + 1 + j = k + (j + 1) := by omega
      rw [hidx]

/-- C1: Phase-1 pricing yields exactly one row per input issue, in input
order; every row carries `bundled_issues = 1` and back-references to its
source issue; a parse or transport failure on one issue yields the
fallback price for that issue alone (the loop is total — no failure
aborts the batch), and a successful oracle response is passed through
with the overwritten bookkeeping fields. -/
theorem phase1_postcondition (oracle : ℕ → Issue → OracleOutcome) (jitter : ℕ → ℚ)
    (issues : List Issue) :
    (priceIssuesLoop oracle jitter issues).length = issues.length
    ∧ (∀ (sha256hex : String → String) (serialize : List Issue → String)
        (cache : String → Option CacheEntry),
        cache (cacheKey sha256hex serialize issues) = none →
          (call_gemini_for_individual_pricing sha256hex serialize cache oracle jitter
              issues).1.1
            = priceIssuesLoop oracle jitter issues)
    ∧ ∀ i : ℕ, i < issues.length →
        (phase1Row oracle jitter issues i).bundled_issues = 1
        ∧ (phase1Row oracle jitter issues i).original_issue_id = some i
        ∧ (phase1Row oracle jitter issues i).original_issue = some (phase1Issue issues i)
        ∧ (oracle i (phase1Issue issues i) = .parseFailure →
            (phase1Row oracle jitter issues i).unit_price_usd
              = (create_fallback_pricing (phase1Issue issues i) (jitter i)).unit_price_usd)
        ∧ (oracle i (phase1Issue issues i) = .transportFailure →
            phase1Row oracle jitter issues i
              = { create_fallback_pricing (phase1Issue issues i) (jitter i) with
                    original_issue_id := some i
                    original_issue := some (phase1Issue issues i) })
        ∧ (∀ item : PricedRow, oracle i (phase1Issue issues i) = .success item →
            phase1Row oracle jitter issues i
              = { item with
                    bundled_issues := 1
                    original_issue_id := some i
                    original_issue := some (phase1Issue issues i) }) := by
  refine ⟨priceLoopAux_length oracle jitter issues 0, ?_, ?_⟩
  · intro sha256hex serialize cache hmiss
    unfold call_gemini_for_individual_pricing
    rw [hmiss]
  · intro i hi
    have hrow : phase1Row oracle jitter issues i
        = priceIssue oracle jitter i (phase1Issue issues i) := by
      unfold phase1Row phase1Issue priceIssuesLoop
      rw [priceLoopAux_getD oracle jitter issues 0 i hi]
      rw [Nat.zero_add]
    rw [hrow]
    unfold priceIssue
    cases horacle : oracle i (phase1Issue issues i) with
    | success item =>
      refine ⟨rfl, rfl, rfl, ?_, ?_, ?_⟩
      · intro hcontra; cases hcontra
      · intro hcontra; cases hcontra
      · intro item' hitem
        injection hitem with hitem'
        rw [hitem']
    | parseFailure =>
      refine ⟨rfl, rfl, rfl, fun _ => rfl, ?_, ?_⟩
      · intro hcontra; cases hcontra
      · intro item' hitem; cases hitem
    | transportFailure =>
      refine ⟨rfl, rfl, rfl, ?_, fun _ => rfl, ?_⟩
      · intro hcontra; cases hcontra
      · intro item' hitem; cases hitem

/-- Witness for C1 on a one-issue batch whose oracle call fails in
transport: the row still exists, carries `bundled_issues = 1` and the
fallback price. -/
theorem phase1_postcondition_witness :
    (priceIssuesLoop (fun _ _ => .transportFailure) (fun _ => 1) [{}]).length = 1
    ∧ (phase1Row (fun _ _ => .transportFailure) (fun _ => 1) [{}] 0).bundled_issues = 1
    ∧ (phase1Row (fun _ _ => .transportFailure) (fun _ => 1) [{}] 0).unit_price_usd
        = (create_fallback_pricing {} 1).unit_price_usd := by
  have h := phase1_postcondition (fun _ _ => .transportFailure) (fun _ => 1) [{}]
  have h0 := h.2.2 0 (by simp)
  refine ⟨h.1, h0.1, ?_⟩
  rw [h0.2.2.2.2.1 rfl]
  rfl

/-- C8: the cache fingerprint is the first 16 characters of the hash of
the sorted-keys-serialized issue list concatenated with the prompt
version; it depends only on that serialized content (identical lists
give identical fingerprints, for every hash function); and a run whose
fingerprint is in the cache returns the stored items and token count
unchanged with zero oracle invocations. -/
theorem cache_fingerprint_determinism (sha256hex : String → String)
    (serialize : List Issue → String) (cache : String → Option CacheEntry)
    (oracle : ℕ → Issue → OracleOutcome) (jitter : ℕ → ℚ)
    (issues issues2 : List Issue) (entry : CacheEntry) :
    cacheKey sha256hex serialize issues
        = takeStr (sha256hex (serialize issues ++ promptVersion)) 16
    ∧ (serialize issues = serialize issues2 →
        cacheKey sha256hex serialize issues = cacheKey sha256hex serialize issues2)
    ∧ (cache (cacheKey sha256hex serialize issues) = some entry →
        call_gemini_for_individual_pricing sha256hex serialize cache oracle jitter issues
          = ((entry.items, entry.tokens), 0)) := by
  refine ⟨rfl, ?_, ?_⟩
  · intro h
    unfold cacheKey
    rw [h]
  · intro h
    unfold call_gemini_for_individual_pricing
    rw [h]

/-- Witness for C8: a concrete cache hit is returned unchanged with zero
oracle calls, and a serialization collision forces equal fingerprints. -/
theorem cache_fingerprint_determinism_witness :
    call_gemini_for_individual_pricing (fun s => s) (fun _ => "") (fun _ => some ⟨[], none⟩)
        (fun _ _ => .transportFailure) (fun _ => 1) []
      = (([], none), 0)
    ∧ cacheKey (fun s => s) (fun _ => "") []
        = cacheKey (fun s => s) (fun _ => "") [{}] := by
  constructor
  · exact (cache_fingerprint_determinism (fun s => s) (fun _ => "") (fun _ => some ⟨[], none⟩)
      (fun _ _ => .transportFailure) (fun _ => 1) [] [] ⟨[], none⟩).2.2 rfl
  · exact (cache_fingerprint_determinism (fun s => s) (fun _ => "") (fun _ => some ⟨[], none⟩)
      (fun _ _ => .transportFailure) (fun _ => 1) [] [{}] ⟨[], none⟩).2.1 rfl

/-! ### C6 — the QualityScorer -/

theorem rawConsolidationScore_bounds (issues : List Issue) (items : List PricedRow) :
    0 ≤ rawConsolidationScore issues items ∧ rawConsolidationScore issues items ≤ 100 := by
  unfold rawConsolidationScore
  simp only
  split_ifs with h1 h2
  · norm_num
  · have ha : ((validate_all_category_consolidation issues items).category_validations.countP
        fun v => v.2.is_acceptable)
        ≤ (validate_all_category_consolidation issues items).category_validations.length :=
      List.countP_le_length _
    have ht : (0 : ℚ)
        < ((validate_all_category_consolidation issues items).category_validations.length : ℚ) := by
      exact_mod_cast h2
    constructor
    · positivity
    · have hdiv : (((validate_all_category_consolidation issues items).category_validations.countP
          fun v => v.2.is_acceptable : ℕ) : ℚ)
          / ((validate_all_category_consolidation issues items).category_validations.length : ℚ)
          ≤ 1 := by
        rw [div_le_one ht]
        exact_mod_cast ha
      nlinarith
  · norm_num

theorem rawPriceConsistencyScore_bounds (items : List PricedRow) :
    0 ≤ rawPriceConsistencyScore items ∧ rawPriceConsistencyScore items ≤ 100 := by
  unfold rawPriceConsistencyScore
  simp only
  split_ifs with h1 h2
  · norm_num
  · norm_num
  · constructor
    · exact le_max_left 0 _
    · apply max_le (by norm_num)
      rw [sub_le_self_iff]
      positivity

theorem rawPriorityDistributionScore_bounds (issues : List Issue) :
    0 ≤ rawPriorityDistributionScore issues ∧ rawPriorityDistributionScore issues ≤ 100 := by
  unfold rawPriorityDistributionScore
  simp only
  split_ifs with h1
  · norm_num
  · constructor
    · exact le_max_left 0 _
    · apply max_le (by norm_num)
      rw [sub_le_self_iff]
      positivity

theorem rawDataCompletenessScore_bounds (items : List PricedRow) :
    0 ≤ rawDataCompletenessScore items ∧ rawDataCompletenessScore items ≤ 100 := by
  unfold rawDataCompletenessScore
  split_ifs with h1
  · norm_num
  · have ha : (items.countP fun it => isCompleteItem it) ≤ items.length :=
      List.countP_le_length _
    have ht : (0 : ℚ) < (items.length : ℚ) := by
      cases items with
      | nil => simp at h1
      | cons a t => exact Nat.cast_pos.mpr (by simp)
    constructor
    · positivity
    · have hdiv : ((items.countP fun it => isCompleteItem it : ℕ) : ℚ)
          / (items.length : ℚ) ≤ 1 := by
        rw [div_le_one ht]
        exact_mod_cast ha
      nlinarith

theorem rawCategoryDistributionScore_bounds (items : List PricedRow) :
    0 ≤ rawCategoryDistributionScore items ∧ rawCategoryDistributionScore items ≤ 100 := by
  unfold rawCategoryDistributionScore
  simp only
  split_ifs with h1 h2
  · norm_num
  · constructor
    · exact le_max_left 0 _
    · apply max_le (by norm_num)
      rw [sub_le_self_iff]
      nlinarith [h2]
  · norm_num

theorem factor_weighted_bounds {raw w : ℚ} (h0 : 0 ≤ raw) (h100 : raw ≤ 100)
    (hw : 0 ≤ w) {B : ℤ} (hB : 100 * w = (B : ℚ)) :
    0 ≤ pyRoundDec 2 (raw * w) ∧ pyRoundDec 2 (raw * w) ≤ (B : ℚ) := by
  constructor
  · exact pyRoundDec_nonneg 2 (mul_nonneg h0 hw)
  · apply pyRoundDec_le
    rw [← hB]
    exact mul_le_mul_of_nonneg_right h100 hw

theorem qualityTotalScore_bounds (issues : List Issue) (items : List PricedRow) :
    0 ≤ qualityTotalScore issues items ∧ qualityTotalScore issues items ≤ 100 := by
  have h1 := rawConsolidationScore_bounds issues items
  have h2 := rawPriceConsistencyScore_bounds items
  have h3 := rawPriorityDistributionScore_bounds issues
  have h4 := rawDataCompletenessScore_bounds items
  have h5 := rawCategoryDistributionScore_bounds items
  have w1 := factor_weighted_bounds h1.1 h1.2 (by norm_num : (0:ℚ) ≤ 30/100)
    (B := 30) (by norm_num)
  have w2 := factor_weighted_bounds h2.1 h2.2 (by norm_num : (0:ℚ) ≤ 25/100)
    (B := 25) (by norm_num)
  have w3 := factor_weighted_bounds h3.1 h3.2 (by norm_num : (0:ℚ) ≤ 20/100)
    (B := 20) (by norm_num)
  have w4 := factor_weighted_bounds h4.1 h4.2 (by norm_num : (0:ℚ) ≤ 15/100)
    (B := 15) (by norm_num)
  have w5 := factor_weighted_bounds h5.1 h5.2 (by norm_num : (0:ℚ) ≤ 10/100)
    (B := 10) (by norm_num)
  have htot : qualityTotalScore issues items
      = pyRoundDec 2 (rawConsolidationScore issues items * (30/100))
        + pyRoundDec 2 (rawPriceConsistencyScore items * (25/100))
        + pyRoundDec 2 (rawPriorityDistributionScore issues * (20/100))
        + pyRoundDec 2 (rawDataCompletenessScore items * (15/100))
        + pyRoundDec 2 (rawCategoryDistributionScore items * (10/100)) := rfl
  rw [htot]
  constructor
  · have := w1.1; have := w2.1; have := w3.1; have := w4.1; have := w5.1
    linarith [w1.1, w2.1, w3.1, w4.1, w5.1]
  · have hb1 : pyRoundDec 2 (rawConsolidationScore issues items * (30/100)) ≤ 30 := by
      exact_mod_cast w1.2
    have hb2 : pyRoundDec 2 (rawPriceConsistencyScore items * (25/100)) ≤ 25 := by
      exact_mod_cast w2.2
    have hb3 : pyRoundDec 2 (rawPriorityDistributionScore issues * (20/100)) ≤ 20 := by
      exact_mod_cast w3.2
    have hb4 : pyRoundDec 2 (rawDataCompletenessScore items * (15/100)) ≤ 15 := by
      exact_mod_cast w4.2
    have hb5 : pyRoundDec 2 (rawCategoryDistributionScore items * (10/100)) ≤ 10 := by
      exact_mod_cast w5.2
    linarith

/-- C6: the overall quality score is the 30/25/20/15/10-weighted sum of
the five sub-scores (each weighted contribution rounded to 2 decimals as
the code does, the reported overall being that sum rounded to 1
decimal); the overall score always lies in [0, 100]; the grade
thresholds on the weighted sum are exact (EXCELLENT iff ≥90, GOOD iff
[80,90), ACCEPTABLE iff [70,80), the needs-review grade iff [60,70),
POOR iff <60 — the source spells the fourth grade "NEEDS REVIEW"); and
`needs_review` holds iff the weighted sum is below 70. -/
theorem quality_score_characterization (issues : List Issue) (items : List PricedRow) :
    (calculate_quality_score issues items).overall_score
        = pyRoundDec 1 (qualityTotalScore issues items)
    ∧ qualityTotalScore issues items
        = (score_consolidation_quality issues items).weighted_score
          + (score_price_consistency items).weighted_score
          + (score_priority_distribution issues).weighted_score
          + (score_data_completeness items).weighted_score
          + (score_category_distribution items).weighted_score
    ∧ (score_consolidation_quality issues items).weight = 30/100
    ∧ (score_price_consistency items).weight = 25/100
    ∧ (score_priority_distribution issues).weight = 20/100
    ∧ (score_data_completeness items).weight = 15/100
    ∧ (score_category_distribution items).weight = 10/100
    ∧ 0 ≤ qualityTotalScore issues items ∧ qualityTotalScore issues items ≤ 100
    ∧ 0 ≤ (calculate_quality_score issues items).overall_score
    ∧ (calculate_quality_score issues items).overall_score ≤ 100
    ∧ ((calculate_quality_score issues items).grade = "EXCELLENT"
        ↔ 90 ≤ qualityTotalScore issues items)
    ∧ ((calculate_quality_score issues items).grade = "GOOD"
        ↔ 80 ≤ qualityTotalScore issues items ∧ qualityTotalScore issues items < 90)
    ∧ ((calculate_quality_score issues items).grade = "ACCEPTABLE"
        ↔ 70 ≤ qualityTotalScore issues items ∧ qualityTotalScore issues items < 80)
    ∧ ((calculate_quality_score issues items).grade = "NEEDS REVIEW"
        ↔ 60 ≤ qualityTotalScore issues items ∧ qualityTotalScore issues items < 70)
    ∧ ((calculate_quality_score issues items).grade = "POOR"
        ↔ qualityTotalScore issues items < 60)
    ∧ ((calculate_quality_score issues items).needs_review = true
        ↔ qualityTotalScore issues items < 70) := by
  have hbounds := qualityTotalScore_bounds issues items
  have hover : (calculate_quality_score issues items).overall_score
      = pyRoundDec 1 (qualityTotalScore issues items) := rfl
  have hgrade : (calculate_quality_score issues items).grade
      = (if qualityTotalScore issues items ≥ 90 then "EXCELLENT"
         else if qualityTotalScore issues items ≥ 80 then "GOOD"
         else if qualityTotalScore issues items ≥ 70 then "ACCEPTABLE"
         else if qualityTotalScore issues items ≥ 60 then "NEEDS REVIEW"
         else "POOR") := rfl
  have hreview : (calculate_quality_score issues items).needs_review
      = decide (qualityTotalScore issues items < 70) := rfl
  refine ⟨hover, rfl, rfl, rfl, rfl, rfl, rfl, hbounds.1, hbounds.2, ?_, ?_, ?_, ?_, ?_, ?_, ?_,
    ?_⟩
  · rw [hover]
    exact pyRoundDec_nonneg 1 hbounds.1
  · rw [hover]
    have := pyRoundDec_le 1 (B := 100) (by exact_mod_cast hbounds.2)
    exact_mod_cast this
  · rw [hgrade]
    by_cases h90 : qualityTotalScore issues items ≥ 90
    · rw [if_pos h90]
      constructor
      · intro _; exact h90
      · intro _; rfl
    · rw [if_neg h90]
      constructor
      · intro hcontra
        exfalso
        split_ifs at hcontra <;> simp_all
      · intro hc; exact absurd hc h90
  · rw [hgrade]
    by_cases h90 : qualityTotalScore issues items ≥ 90
    · rw [if_pos h90]
      constructor
      · intro hcontra; simp_all
      · intro hc; linarith [hc.2]
    · rw [if_neg h90]
      by_cases h80 : qualityTotalScore issues items ≥ 80
      · rw [if_pos h80]
        constructor
        · intro _; exact ⟨h80, by linarith [not_le.mp h90]⟩
        · intro _; rfl
      · rw [if_neg h80]
        constructor
        · intro hcontra
          exfalso
          split_ifs at hcontra <;> simp_all
        · intro hc; exact absurd hc.1 h80
  · rw [hgrade]
    by_cases h90 : qualityTotalScore issues items ≥ 90
    · rw [if_pos h90]
      constructor
      · intro hcontra; simp_all
      · intro hc; linarith [hc.2]
    · rw [if_neg h90]
      by_cases h80 : qualityTotalScore issues items ≥ 80
      · rw [if_pos h80]
        constructor
        · intro hcontra; simp_all
        · intro hc; linarith [hc.2]
      · rw [if_neg h80]
        by_cases h70 : qualityTotalScore issues items ≥ 70
        · rw [if_pos h70]
          constructor
          · intro _; exact ⟨h70, by linarith [not_le.mp h80]⟩
          · intro _; rfl
        · rw [if_neg h70]
          constructor
          · intro hcontra
            exfalso
            split_ifs at hcontra <;> simp_all
          · intro hc; exact absurd hc.1 h70
  · rw [hgrade]
    by_cases h90 : qualityTotalScore issues items ≥ 90
    · rw [if_pos h90]
      constructor
      · intro hcontra; simp_all
      · intro hc; linarith [hc.2]
    · rw [if_neg h90]
      by_cases h80 : qualityTotalScore issues items ≥ 80
      · rw [if_pos h80]
        constructor
        · intro hcontra; simp_all
        · intro hc; linarith [hc.2]
      · rw [if_neg h80]
        by_cases h70 : qualityTotalScore issues items ≥ 70
        · rw [if_pos h70]
          constructor
          · intro hcontra; simp_all
          · intro hc; linarith [hc.2]
        · rw [if_neg h70]
          by_cases h60 : qualityTotalScore issues items ≥ 60
          · rw [if_pos h60]
            constructor
            · intro _; exact ⟨h60, by linarith [not_le.mp h70]⟩
            · intro _; rfl
          · rw [if_neg h60]
            constructor
            · intro hcontra; simp_all
            · intro hc; exact absurd hc.1 h60
  · rw [hgrade]
    by_cases h90 : qualityTotalScore issues items ≥ 90
    · rw [if_pos h90]
      constructor
      · intro hcontra; simp_all
      · intro hc; linarith
    · rw [if_neg h90]
      by_cases h80 : qualityTotalScore issues items ≥ 80
      · rw [if_pos h80]
        constructor
        · intro hcontra; simp_all
        · intro hc; linarith
      · rw [if_neg h80]
        by_cases h70 : qualityTotalScore issues items ≥ 70
        · rw [if_pos h70]
          constructor
          · intro hcontra; simp_all
          · intro hc; linarith
        · rw [if_neg h70]
          by_cases h60 : qualityTotalScore issues items ≥ 60
          · rw [if_pos h60]
            constructor
            · intro hcontra; simp_all
            · intro hc; linarith
          · rw [if_neg h60]
            constructor
            · intro _; exact by linarith [not_le.mp h60]
            · intro _; rfl
  · rw [hreview]
    constructor
    · intro h; exact of_decide_eq_true h
    · intro h; exact decide_eq_true h

end EstimateBuilder
